import Mathlib

/-!
# AssetVerse backend — shallow embedding and verification

This file embeds the core operations of the AssetVerse asset-lifecycle API
(`src/routes/requests.route.js`, `src/routes/assignedAssets.route.js`,
`src/routes/payments.route.js`) as pure Lean functions over an explicit
database state, and proves the specification claims about them.

Modelling conventions:
* MongoDB documents become Lean structures; `_id` values become `Nat`
  (fresh ids for inserts are passed as explicit parameters).
* A collection is a `List` of documents in natural order; `findOne` is
  `List.find?`, `updateOne` updates the first matching document,
  `deleteOne` removes the first matching document.
* `Date` values become `Nat` timestamps passed in as `now` parameters.
* `session.withTransaction` becomes an `Except`-valued transaction body;
  the route wrapper returns the original state on error (rollback) and the
  transaction body's final state on success (commit).
* JavaScript `x || null` on strings becomes `jsOrNull` (empty string and
  absent both map to `none`); `Number(s)` becomes `jsNumberOfString`,
  which follows the ECMAScript StringToNumber algorithm: optional
  whitespace, optionally-signed decimal literals with fraction and
  exponent (`"5.5"`, `"+5"`, `"-2.5"`, `"1e-2"`, `".5"`), hex / octal /
  binary prefixes (`"0x1F"`, `"0o17"`, `"0b101"`), `"Infinity"` with
  optional sign, the empty / whitespace-only string to `0`, and every
  other string to `JsNum.nan` (JS `NaN`; in particular `NaN > 0` is
  false).  Finite values are exact rationals, adequate for the short
  literals this API sees (no double rounding is modelled).
* `new ObjectId(s)` on an untrusted string is modelled by
  `isValidObjectId` (24 hex characters, the BSON canonical form): the
  constructor throws on other strings, which aborts the enclosing
  transaction.
-/

/-- JavaScript number: an exact finite rational, `Infinity`, `-Infinity`,
or `NaN` (the possible results of `Number(...)` coercion). -/
inductive JsNum where
  | num (q : ℚ)
  | inf
  | negInf
  | nan
deriving DecidableEq, Repr

/-- ECMAScript StrWhiteSpaceChar (the characters `Number()` trims). -/
def isJsWs (c : Char) : Bool :=
  c = ' ' || c = '\t' || c = '\n' || c = '\r' || c = '\x0b' || c = '\x0c'

/-- Trim JS whitespace from both ends. -/
def trimWs (cs : List Char) : List Char :=
  ((cs.dropWhile isJsWs).reverse.dropWhile isJsWs).reverse

/-- Longest decimal-digit run at the front, and the remainder. -/
def takeDigits : List Char → List Char × List Char
  | [] => ([], [])
  | c :: cs =>
    if c.isDigit then
      let (d, r) := takeDigits cs
      (c :: d, r)
    else ([], c :: cs)

/-- Value of a list of decimal digits. -/
def digitsVal (ds : List Char) : Nat :=
  ds.foldl (fun n c => 10 * n + (c.toNat - 48)) 0

/-- Value of a non-empty all-valid digit string in the given radix;
`none` when empty or containing an invalid digit. -/
def radixVal? (radix : Nat) (digitVal : Char → Option Nat) (cs : List Char) : Option Nat :=
  if cs.isEmpty then none
  else cs.foldl (fun acc c => acc.bind fun n => (digitVal c).map fun d => radix * n + d) (some 0)

/-- Hexadecimal digit value. -/
def hexDigitVal? (c : Char) : Option Nat :=
  if c.isDigit then some (c.toNat - 48)
  else if 'a' ≤ c && c ≤ 'f' then some (c.toNat - 87)
  else if 'A' ≤ c && c ≤ 'F' then some (c.toNat - 55)
  else none

/-- Octal digit value. -/
def octDigitVal? (c : Char) : Option Nat :=
  if '0' ≤ c && c ≤ '7' then some (c.toNat - 48) else none

/-- Binary digit value. -/
def binDigitVal? (c : Char) : Option Nat :=
  if c = '0' then some 0 else if c = '1' then some 1 else none

/-- The rational `sgn * mant * 10 ^ e`, built through a single `mkRat` so
that it kernel-reduces. -/
def decToRat (sgn : Int) (mant : Nat) (e : Int) : ℚ :=
  if 0 ≤ e then mkRat (sgn * (mant : Int) * (10 : Int).pow e.toNat) 1
  else mkRat (sgn * (mant : Int)) ((10 : Nat).pow (-e).toNat)

/-- Parse `Digits [. Digits]`: mantissa digits value, number of fraction
digits, and the remainder; `none` when there are no digits at all. -/
def parseMantissa (cs : List Char) : Option (Nat × Nat × List Char) :=
  let (ip, rest) := takeDigits cs
  match rest with
  | '.' :: rest2 =>
    let (fp, rest3) := takeDigits rest2
    if ip.isEmpty && fp.isEmpty then none
    else some (digitsVal (ip ++ fp), fp.length, rest3)
  | _ => if ip.isEmpty then none else some (digitsVal ip, 0, rest)

/-- Parse the optional exponent part `e[±]Digits` that must consume the
whole remainder; `some 0` on the empty remainder, `none` on junk. -/
def parseExpSuffix (cs : List Char) : Option Int :=
  match cs with
  | [] => some 0
  | 'e' :: rest | 'E' :: rest =>
    let (sgn, rest2) : Int × List Char :=
      match rest with
      | '+' :: r => (1, r)
      | '-' :: r => (-1, r)
      | r => (1, r)
    let (ed, rest3) := takeDigits rest2
    if ed.isEmpty || !rest3.isEmpty then none
    else some (sgn * (digitsVal ed : Int))
  | _ => none

/-- Parse an unsigned decimal literal (with optional fraction and
exponent) under the given sign; `JsNum.nan` when ill-formed. -/
def parseDecLiteral (sgn : Int) (cs : List Char) : JsNum :=
  match parseMantissa cs with
  | none => .nan
  | some (mant, fracLen, rest) =>
    match parseExpSuffix rest with
    | none => .nan
    | some e => .num (decToRat sgn mant (e - (fracLen : Int)))

/-- JS `Number(s)` (ECMAScript StringToNumber): trimmed empty string is
`0`; `0x`/`0o`/`0b` radix literals; optionally signed `Infinity` or
decimal literal; anything else is `NaN`. -/
def jsNumberOfString (s : String) : JsNum :=
  match trimWs s.data with
  | [] => .num 0
  | '0' :: 'x' :: rest =>
    (match radixVal? 16 hexDigitVal? rest with
     | some n => .num (mkRat (Int.ofNat n) 1) | none => .nan)
  | '0' :: 'X' :: rest =>
    (match radixVal? 16 hexDigitVal? rest with
     | some n => .num (mkRat (Int.ofNat n) 1) | none => .nan)
  | '0' :: 'o' :: rest =>
    (match radixVal? 8 octDigitVal? rest with
     | some n => .num (mkRat (Int.ofNat n) 1) | none => .nan)
  | '0' :: 'O' :: rest =>
    (match radixVal? 8 octDigitVal? rest with
     | some n => .num (mkRat (Int.ofNat n) 1) | none => .nan)
  | '0' :: 'b' :: rest =>
    (match radixVal? 2 binDigitVal? rest with
     | some n => .num (mkRat (Int.ofNat n) 1) | none => .nan)
  | '0' :: 'B' :: rest =>
    (match radixVal? 2 binDigitVal? rest with
     | some n => .num (mkRat (Int.ofNat n) 1) | none => .nan)
  | '+' :: body => if body = "Infinity".data then .inf else parseDecLiteral 1 body
  | '-' :: body => if body = "Infinity".data then .negInf else parseDecLiteral (-1) body
  | body => if body = "Infinity".data then .inf else parseDecLiteral 1 body

/-- JS `x || 0` applied to a number (`0`, `-0` and `NaN` are the falsy
numbers; `-0` and `NaN` map to `0`, everything else is unchanged). -/
def JsNum.orZero : JsNum → JsNum
  | .nan => .num 0
  | v => v

/-- JS `x > 0` on a number (`NaN > 0` and `-Infinity > 0` are `false`). -/
def JsNum.gtZero : JsNum → Bool
  | .num q => decide (0 < q)
  | .inf => true
  | .negInf => false
  | .nan => false

/-- JS `a > b` (any comparison with `NaN` is `false`). -/
def JsNum.jsGt : JsNum → JsNum → Bool
  | .num a, .num b => decide (b < a)
  | .num _, .negInf => true
  | .inf, .num _ => true
  | .inf, .negInf => true
  | _, _ => false

/-- JS `a <= b` (any comparison with `NaN` is `false`). -/
def JsNum.jsLe : JsNum → JsNum → Bool
  | .num a, .num b => decide (a ≤ b)
  | .num _, .inf => true
  | .negInf, .num _ => true
  | .negInf, .inf => true
  | .inf, .inf => true
  | .negInf, .negInf => true
  | _, _ => false

/-- JS `Number(x || 0)` where `x` is an optional string field. -/
def jsNumberOrZero : Option String → JsNum
  | none => .num 0
  | some s => if s = "" then .num 0 else jsNumberOfString s

/-- JS `x || null` on an optional string (empty string is falsy). -/
def jsOrNull : Option String → Option String
  | none => none
  | some s => if s = "" then none else some s

/-- JS truthiness test for an optional string field. -/
def strTruthy : Option String → Bool
  | none => false
  | some s => s ≠ ""

/-- JS `String(x).toLowerCase()`, modelled per character (adequate for
the ASCII e-mail addresses this API compares). -/
def jsToLowerCase (s : String) : String := ⟨s.data.map Char.toLower⟩

/-- A string is a valid canonical BSON ObjectId (24 hex characters);
`new ObjectId(s)` throws for other strings in this model. -/
def isValidObjectId (s : String) : Bool :=
  s.length = 24 && s.data.all (fun c => c.isDigit || ('a' ≤ c && c ≤ 'f') || ('A' ≤ c && c ≤ 'F'))

/-- `updateOne`: apply `f` to the first element satisfying `p`. -/
def updateFirst (p : α → Bool) (f : α → α) : List α → List α
  | [] => []
  | x :: xs => if p x then f x :: xs else x :: updateFirst p f xs

/-- `deleteOne`: remove the first element satisfying `p`. -/
def deleteFirst (p : α → Bool) : List α → List α
  | [] => []
  | x :: xs => if p x then xs else x :: deleteFirst p xs

/-! ## Document structures -/

/-- An `assets` collection document (the fields read or written by the
request / assignment / affiliation workflow). -/
structure Asset where
  id : Nat
  productName : String
  productImage : Option String
  productType : String
  availableQuantity : Int
  hrEmail : String
  companyName : Option String
deriving DecidableEq, Repr

/-- A `requests` collection document. -/
structure Request where
  id : Nat
  assetId : Nat
  assetName : String
  assetType : String
  requesterName : String
  requesterEmail : String
  hrEmail : String
  companyName : Option String
  companyLogo : Option String
  requestDate : Nat
  approvalDate : Option Nat
  requestStatus : String
  note : Option String
  processedBy : Option String
deriving DecidableEq, Repr

/-- An `assignedAssets` collection document. -/
structure AssignedAsset where
  id : Nat
  assetId : Option Nat
  assetName : String
  assetImage : Option String
  assetType : String
  employeeEmail : String
  employeeName : String
  hrEmail : String
  companyName : Option String
  assignmentDate : Nat
  returnDate : Option Nat
  status : String
deriving DecidableEq, Repr

/-- An `employeeAffiliations` collection document. -/
structure Affiliation where
  id : Nat
  employeeEmail : String
  employeeName : String
  hrEmail : String
  companyName : Option String
  companyLogo : Option String
  affiliationDate : Nat
  status : String
deriving DecidableEq, Repr

/-- A `users` collection document (the capacity-relevant fields of an HR
account). -/
structure User where
  email : String
  packageLimit : JsNum
  currentEmployees : Int
  subscription : Option String
deriving DecidableEq, Repr

/-- A `payments` collection document (audit row written by the webhook). -/
structure PaymentRecord where
  hrEmail : Option String
  packageId : Option String
  packageName : Option String
  employeeLimit : JsNum
  amount : Option Int
  currency : Option String
  transactionId : String
  paymentDate : Nat
  status : String
deriving DecidableEq, Repr

/-- The shared document store. -/
structure DB where
  assets : List Asset
  requests : List Request
  assignedAssets : List AssignedAsset
  affiliations : List Affiliation
  users : List User
  payments : List PaymentRecord
deriving DecidableEq, Repr

/-- The authenticated caller injected by `verifyToken` (`req.user`). -/
structure AuthUser where
  name : String
  email : String
  role : String
deriving DecidableEq, Repr

/-! ## Error taxonomy

One constructor per `throw` / early-return site of the modelled routes;
the comment on each gives the source message and the spec's error class. -/

inductive AppError where
  /-- 403 'Only employees can create asset requests' (`Forbidden`). -/
  | onlyEmployees
  /-- 404 'Asset not found' (`NotFound`). -/
  | assetNotFound
  /-- throw 'Request not found' (`NotFound`). -/
  | requestNotFound
  /-- throw 'Not authorized for this request' (`Forbidden`). -/
  | notAuthorizedForRequest
  /-- throw 'Request not pending' (`InvalidState`). -/
  | requestNotPending
  /-- throw 'Associated asset not found' (`NotFound`). -/
  | associatedAssetNotFound
  /-- throw 'Asset not available' (quantity exhausted). -/
  | assetNotAvailable
  /-- throw 'Failed to decrement asset (concurrent update?)' (`Conflict`). -/
  | decrementConflict
  /-- throw 'HR user not found' (`NotFound`). -/
  | hrUserNotFound
  /-- throw 'Package employee limit reached; ...' (`CapacityExceeded`). -/
  | capacityExceeded
  /-- throw 'Assigned asset not found' (`NotFound`). -/
  | assignedNotFound
  /-- throw 'Not authorized to return this asset' (`Forbidden`). -/
  | notAuthorizedToReturn
  /-- throw 'Asset is not currently assigned or already returned' (`InvalidState`). -/
  | notCurrentlyAssigned
  /-- throw 'Underlying asset record not found' (`NotFound`). -/
  | underlyingAssetNotFound
  /-- throw 'This asset type is non-returnable' (`InvalidOperation`). -/
  | nonReturnable
  /-- throw 'Affiliation not found for this employee under your company' (`NotFound`). -/
  | affiliationNotFound
  /-- 400 'employeeEmail is required in params' (`InvalidInput`). -/
  | employeeEmailRequired
deriving DecidableEq, Repr

/-! ## POST /requests — createRequest -/

/-- `POST /requests` (`requests.route.js` lines 18–64): an employee creates a
pending request for an asset; `hrEmail`/`companyName` are snapshotted from
the asset document; `availableQuantity` is neither checked nor modified.
`rid` models the generated `_id`, `now` the `new Date()` timestamp. -/
def createRequest (db : DB) (user : AuthUser) (assetId : Nat) (note : Option String)
    (rid : Nat) (now : Nat) : DB × Except AppError Request :=
  if user.role ≠ "employee" then (db, .error .onlyEmployees)
  else
    match db.assets.find? (fun a => a.id = assetId) with
    | none => (db, .error .assetNotFound)
    | some asset =>
      let requestDoc : Request := {
        id := rid
        assetId := asset.id
        assetName := asset.productName
        assetType := asset.productType
        requesterName := user.name
        requesterEmail := user.email
        hrEmail := asset.hrEmail
        companyName := jsOrNull asset.companyName
        companyLogo := none
        requestDate := now
        approvalDate := none
        requestStatus := "pending"
        note := jsOrNull note
        processedBy := none }
      ({ db with requests := db.requests ++ [requestDoc] }, .ok requestDoc)

/-! ## PUT /requests/:id/approve — approveRequest

`requests.route.js` lines 159–278. The transaction body is split into a
read phase (steps 1–2's reads and checks, which in MongoDB observe the
transaction's snapshot) and a write phase (the conditional decrement and
all subsequent writes). `approveRequestTx` composes them sequentially,
which is exactly the source's straight-line transaction body. -/

/-- Data the approval transaction has read before its first write. -/
structure ApproveSnapshot where
  request : Request
  asset : Asset
deriving DecidableEq, Repr

/-- Steps 1–2 of the approval transaction: fetch the request, check
ownership and pending status, fetch the asset, check availability. -/
def approveReadPhase (db : DB) (hrEmail : String) (reqId : Nat) :
    Except AppError ApproveSnapshot :=
  match db.requests.find? (fun r => r.id = reqId) with
  | none => .error .requestNotFound
  | some request =>
    if request.hrEmail ≠ hrEmail then .error .notAuthorizedForRequest
    else if request.requestStatus ≠ "pending" then .error .requestNotPending
    else
      match db.assets.find? (fun a => a.id = request.assetId) with
      | none => .error .associatedAssetNotFound
      | some asset =>
        if asset.availableQuantity ≤ 0 then .error .assetNotAvailable
        else .ok ⟨request, asset⟩

/-- The conditional decrement (`updateOne` with predicate
`{_id: asset._id, availableQuantity: {$gt: 0}}` and `$inc: -1`);
returns the updated assets list and the matched count (0 or 1). -/
def decrementAvailable (assets : List Asset) (assetId : Nat) : List Asset × Nat :=
  if assets.any (fun a => a.id = assetId && 0 < a.availableQuantity) then
    (updateFirst (fun a => a.id = assetId && decide (0 < a.availableQuantity))
      (fun a => { a with availableQuantity := a.availableQuantity - 1 }) assets, 1)
  else (assets, 0)

/-- Steps 2 (write)–5 of the approval transaction: conditional decrement,
insert the assignment, mark the request approved, then (lazily) create the
affiliation after the capacity check. `assignedId`/`affId` model the
generated `_id`s. Returns the new state and the inserted assignment id. -/
def approveWritePhase (db : DB) (hrEmail : String) (now : Nat)
    (assignedId affId : Nat) (snap : ApproveSnapshot) :
    Except AppError (DB × Nat) :=
  let dres := decrementAvailable db.assets snap.asset.id
  if dres.2 = 0 then .error .decrementConflict
  else
    let assets1 := dres.1
    let assignedDoc : AssignedAsset := {
      id := assignedId
      assetId := some snap.asset.id
      assetName := snap.asset.productName
      assetImage := jsOrNull snap.asset.productImage
      assetType := snap.asset.productType
      employeeEmail := snap.request.requesterEmail
      employeeName := snap.request.requesterName
      hrEmail := hrEmail
      companyName := jsOrNull snap.request.companyName
      assignmentDate := now
      returnDate := none
      status := "assigned" }
    let db1 : DB := { db with
      assets := assets1
      assignedAssets := db.assignedAssets ++ [assignedDoc] }
    let db2 : DB := { db1 with
      requests := updateFirst (fun r => r.id = snap.request.id)
        (fun r => { r with
          requestStatus := "approved"
          approvalDate := some now
          processedBy := some hrEmail }) db1.requests }
    match db2.affiliations.find?
        (fun f => f.employeeEmail = snap.request.requesterEmail && f.hrEmail = hrEmail) with
    | some _ => .ok (db2, assignedId)
    | none =>
      match db2.users.find? (fun u => u.email = hrEmail) with
      | none => .error .hrUserNotFound
      | some hrUser =>
        if JsNum.jsGt (.num ((hrUser.currentEmployees + 1 : Int) : ℚ))
            (JsNum.orZero hrUser.packageLimit) then .error .capacityExceeded
        else
          let affDoc : Affiliation := {
            id := affId
            employeeEmail := snap.request.requesterEmail
            employeeName := snap.request.requesterName
            hrEmail := hrEmail
            companyName := jsOrNull snap.request.companyName
            companyLogo := jsOrNull snap.request.companyLogo
            affiliationDate := now
            status := "active" }
          let db3 : DB := { db2 with
            affiliations := db2.affiliations ++ [affDoc]
            users := updateFirst (fun u => u.email = hrEmail)
              (fun u => { u with currentEmployees := u.currentEmployees + 1 }) db2.users }
          .ok (db3, assignedId)

/-- The whole approval transaction body (read phase then write phase,
exactly the source's sequential order). -/
def approveRequestTx (db : DB) (hrEmail : String) (reqId : Nat) (now : Nat)
    (assignedId affId : Nat) : Except AppError (DB × Nat) :=
  match approveReadPhase db hrEmail reqId with
  | .error e => .error e
  | .ok snap => approveWritePhase db hrEmail now assignedId affId snap

/-- `PUT /requests/:id/approve`: run the transaction; on any thrown error
the transaction aborts and the store is unchanged. -/
def approveRequest (db : DB) (hrEmail : String) (reqId : Nat) (now : Nat)
    (assignedId affId : Nat) : DB × Except AppError Nat :=
  match approveRequestTx db hrEmail reqId now assignedId affId with
  | .ok (db', aid) => (db', .ok aid)
  | .error e => (db, .error e)

/-! ## PUT /requests/:id/reject — rejectRequest -/

/-- `PUT /requests/:id/reject` (`requests.route.js` lines 285–314):
single-document pending→rejected transition. -/
def rejectRequest (db : DB) (hrEmail : String) (reqId : Nat) (now : Nat) :
    DB × Except AppError Unit :=
  match db.requests.find? (fun r => r.id = reqId) with
  | none => (db, .error .requestNotFound)
  | some request =>
    if request.hrEmail ≠ hrEmail then (db, .error .notAuthorizedForRequest)
    else if request.requestStatus ≠ "pending" then (db, .error .requestNotPending)
    else
      let db' : DB := { db with
        requests := updateFirst (fun r => r.id = request.id)
          (fun r => { r with
            requestStatus := "rejected"
            approvalDate := some now
            processedBy := some hrEmail }) db.requests }
      (db', .ok ())

/-! ## POST /assigned-assets/:id/return — returnAssignment -/

/-- The return transaction body (`assignedAssets.route.js` lines 107–174):
ownership and status checks, returnable-type check, then the three writes
(mark assignment returned, increment asset quantity, opportunistically mark
the first matching approved request returned). -/
def returnAssignmentTx (db : DB) (user : AuthUser) (assignedId : Nat) (now : Nat) :
    Except AppError DB :=
  match db.assignedAssets.find? (fun a => a.id = assignedId) with
  | none => .error .assignedNotFound
  | some assigned =>
    if jsToLowerCase assigned.employeeEmail ≠ jsToLowerCase user.email then
      .error .notAuthorizedToReturn
    else if assigned.status ≠ "assigned" then .error .notCurrentlyAssigned
    else
      match assigned.assetId.bind (fun aid => db.assets.find? (fun a => a.id = aid)) with
      | none => .error .underlyingAssetNotFound
      | some asset =>
        if asset.productType ≠ "Returnable" then .error .nonReturnable
        else
          let db1 : DB := { db with
            assignedAssets := updateFirst (fun a => a.id = assigned.id)
              (fun a => { a with status := "returned", returnDate := some now })
              db.assignedAssets }
          let db2 : DB := { db1 with
            assets := updateFirst (fun a => a.id = asset.id)
              (fun a => { a with availableQuantity := a.availableQuantity + 1 })
              db1.assets }
          let db3 : DB := { db2 with
            requests := updateFirst
              (fun r => r.assetId = asset.id && r.requesterEmail = assigned.employeeEmail
                && r.requestStatus = "approved")
              (fun r => { r with requestStatus := "returned" }) db2.requests }
          .ok db3

/-- `POST /assigned-assets/:id/return`: run the transaction; abort on error
leaves the store unchanged. -/
def returnAssignment (db : DB) (user : AuthUser) (assignedId : Nat) (now : Nat) :
    DB × Except AppError Unit :=
  match returnAssignmentTx db user assignedId now with
  | .ok db' => (db', .ok ())
  | .error e => (db, .error e)

/-! ## DELETE /affiliations/:employeeEmail — removeAffiliation -/

/-- One iteration of the offboarding loop (`assignedAssets.route.js`
lines 324–351): mark this assignment returned; if it has an `assetId`,
increment that asset's quantity and mark the first matching approved
request returned. -/
def revertOneAssignment (employeeEmail : String) (now : Nat) (db : DB)
    (assigned : AssignedAsset) : DB :=
  let dbA : DB := { db with
    assignedAssets := updateFirst (fun a => a.id = assigned.id)
      (fun a => { a with status := "returned", returnDate := some now })
      db.assignedAssets }
  match assigned.assetId with
  | none => dbA
  | some aid =>
    let dbB : DB := { dbA with
      assets := updateFirst (fun a => a.id = aid)
        (fun a => { a with availableQuantity := a.availableQuantity + 1 }) dbA.assets }
    { dbB with
      requests := updateFirst
        (fun r => r.assetId = aid && r.requesterEmail = employeeEmail
          && r.requestStatus = "approved")
        (fun r => { r with requestStatus := "returned" }) dbB.requests }

/-- The requests-collection effect of one offboarding loop iteration
(`assignedAssets.route.js` lines 341–349), in isolation: when the
assignment references an asset, `updateOne` flips the first `approved`
request of that employee for that asset to `returned`. -/
def revertRequestsStep (employeeEmail : String) (reqs : List Request)
    (assigned : AssignedAsset) : List Request :=
  match assigned.assetId with
  | none => reqs
  | some aid => updateFirst
      (fun r => r.assetId = aid && r.requesterEmail = employeeEmail
        && r.requestStatus = "approved")
      (fun r => { r with requestStatus := "returned" }) reqs

/-- The offboarding transaction body (`assignedAssets.route.js` lines
300–372): find the affiliation, snapshot the employee's `assigned`
assignments, revert each, delete the affiliation, decrement the HR's
`currentEmployees` (no floor check). Returns the reverted count. -/
def removeAffiliationTx (db : DB) (hrEmail employeeEmail : String) (now : Nat) :
    Except AppError (DB × Nat) :=
  match db.affiliations.find?
      (fun f => f.employeeEmail = employeeEmail && f.hrEmail = hrEmail) with
  | none => .error .affiliationNotFound
  | some affiliation =>
    let assignedList := db.assignedAssets.filter
      (fun a => a.employeeEmail = employeeEmail && a.hrEmail = hrEmail
        && a.status = "assigned")
    let db1 := assignedList.foldl (revertOneAssignment employeeEmail now) db
    let db2 : DB := { db1 with
      affiliations := deleteFirst (fun f => f.id = affiliation.id) db1.affiliations }
    let db3 : DB := { db2 with
      users := updateFirst (fun u => u.email = hrEmail)
        (fun u => { u with currentEmployees := u.currentEmployees - 1 }) db2.users }
    .ok (db3, assignedList.length)

/-- `DELETE /affiliations/:employeeEmail`: the route lower-cases the path
parameter, rejects an empty one, then runs the transaction (abort on error
leaves the store unchanged). -/
def removeAffiliation (db : DB) (hrEmail rawEmployeeEmail : String) (now : Nat) :
    DB × Except AppError Nat :=
  let employeeEmail := jsToLowerCase rawEmployeeEmail
  if employeeEmail = "" then (db, .error .employeeEmailRequired)
  else
    match removeAffiliationTx db hrEmail employeeEmail now with
    | .ok (db', n) => (db', .ok n)
    | .error e => (db, .error e)

/-! ## POST /payments/webhook — stripeWebhookHandler -/

/-- The metadata attached to a checkout session (all values are strings on
the wire; absent fields are `none`). -/
structure SessionMetadata where
  hrEmail : Option String
  packageId : Option String
  packageName : Option String
  employeeLimit : Option String
deriving DecidableEq, Repr

/-- An inbound Stripe event as seen by the handler: whether
`stripe.webhooks.constructEvent` accepts the signature, the event type and
the checkout-session payload. -/
structure StripeEvent where
  sigValid : Bool
  eventType : String
  metadata : SessionMetadata
  amountTotal : Option Int
  currency : Option String
  sessionId : String
deriving DecidableEq, Repr

/-- The handler's HTTP outcome. -/
inductive WebhookResp where
  /-- 400 `Webhook Error: ...` — signature verification failed. -/
  | badSignature
  /-- 200 `{received: true}`. -/
  | received
  /-- 500 `Webhook processing error` — the transaction threw. -/
  | processingError
deriving DecidableEq, Repr

/-- `stripeWebhookHandler` (`payments.route.js` lines 76–142): verify the
signature before anything else; on `checkout.session.completed`, inside one
transaction insert the payment audit row (building it evaluates
`new ObjectId(packageId)`, which throws on a malformed id and aborts the
transaction) and, only when `hrEmail` is truthy and the coerced
`employeeLimit` exceeds 0, overwrite the HR user's `packageLimit` and
`subscription`. -/
def stripeWebhookHandler (db : DB) (ev : StripeEvent) (now : Nat) :
    DB × WebhookResp :=
  if !ev.sigValid then (db, .badSignature)
  else if ev.eventType = "checkout.session.completed" then
    let md := ev.metadata
    let employeeLimit := jsNumberOrZero md.employeeLimit
    -- `packageId ? new ObjectId(packageId) : null`
    let packageIdField : Except Unit (Option String) :=
      if strTruthy md.packageId then
        match md.packageId with
        | some s => if isValidObjectId s then .ok (some s) else .error ()
        | none => .ok none
      else .ok none
    match packageIdField with
    | .error _ => (db, .processingError)
    | .ok pid =>
      let paymentDoc : PaymentRecord := {
        hrEmail := jsOrNull md.hrEmail
        packageId := pid
        packageName := jsOrNull md.packageName
        employeeLimit := employeeLimit
        amount := ev.amountTotal
        currency := ev.currency
        transactionId := ev.sessionId
        paymentDate := now
        status := "completed" }
      let db1 : DB := { db with payments := db.payments ++ [paymentDoc] }
      let db2 : DB :=
        if strTruthy md.hrEmail && employeeLimit.gtZero then
          { db1 with
            users := updateFirst (fun u => some u.email = md.hrEmail)
              (fun u => { u with
                packageLimit := employeeLimit
                subscription := some ((jsOrNull md.packageName).getD "upgraded") })
              db1.users }
        else db1
      (db2, .received)
  else (db, .received)

/-! ## Operation traces -/

/-- One externally-triggered operation of the modelled workflow (each
constructor carries the generated ids / timestamps as data). -/
inductive Op where
  | create (user : AuthUser) (assetId : Nat) (note : Option String) (rid now : Nat)
  | approve (hrEmail : String) (reqId now assignedId affId : Nat)
  | reject (hrEmail : String) (reqId now : Nat)
  | giveBack (user : AuthUser) (assignedId now : Nat)
  | removeAff (hrEmail rawEmployeeEmail : String) (now : Nat)
  | payment (ev : StripeEvent) (now : Nat)
deriving DecidableEq, Repr

/-- The state reached after one operation (errors leave the state as the
route wrappers do). -/
def applyOp (db : DB) : Op → DB
  | .create u assetId note rid now => (createRequest db u assetId note rid now).1
  | .approve hr reqId now aid fid => (approveRequest db hr reqId now aid fid).1
  | .reject hr reqId now => (rejectRequest db hr reqId now).1
  | .giveBack u aid now => (returnAssignment db u aid now).1
  | .removeAff hr emp now => (removeAffiliation db hr emp now).1
  | .payment ev now => (stripeWebhookHandler db ev now).1

/-- The state reached after a sequence of operations. -/
def applyOps (db : DB) (ops : List Op) : DB := ops.foldl applyOp db

/-- Whether an operation is a payment-capacity update (webhook delivery). -/
def Op.isPayment : Op → Bool
  | .payment _ _ => true
  | _ => false

/-- The capacity invariant: every account's live employee count is within
its package limit, under the JS comparison (so a `NaN` or `-Infinity`
limit never satisfies it). -/
def capacityOk (db : DB) : Prop :=
  ∀ u ∈ db.users, JsNum.jsLe (.num ((u.currentEmployees : Int) : ℚ)) u.packageLimit = true

instance (db : DB) : Decidable (capacityOk db) := by
  unfold capacityOk; infer_instance

/-! ## Request status machine -/

/-- The legal single-step transitions of a request status (including
staying put). -/
def allowedEdge (s t : String) : Prop :=
  s = t ∨ (s = "pending" ∧ (t = "approved" ∨ t = "rejected"))
    ∨ (s = "approved" ∧ t = "returned")

instance (s t : String) : Decidable (allowedEdge s t) := by
  unfold allowedEdge; infer_instance

/-- Reachability in the status machine (reflexive-transitive closure of
`allowedEdge`, written out). -/
def statusReach (s t : String) : Prop :=
  s = t ∨ (s = "pending" ∧ (t = "approved" ∨ t = "rejected" ∨ t = "returned"))
    ∨ (s = "approved" ∧ t = "returned")

instance (s t : String) : Decidable (statusReach s t) := by
  unfold statusReach; infer_instance

/-- Rank of a status: every status-changing legal edge strictly increases
it, so no transition can ever be taken twice and `pending` is never
re-entered. -/
def statusRank (s : String) : Nat :=
  if s = "pending" then 0 else if s = "approved" then 1 else 2

theorem allowedEdge_statusReach {s t : String} (h : allowedEdge s t) : statusReach s t := by
  rcases h with h | ⟨h1, h2 | h2⟩ | ⟨h1, h2⟩ <;> subst_vars <;> simp [statusReach]

theorem statusReach_trans {s t u : String} (h1 : statusReach s t) (h2 : statusReach t u) :
    statusReach s u := by
  rcases h1 with h | ⟨ha, hb | hb | hb⟩ | ⟨ha, hb⟩ <;> subst_vars <;>
    first
    | exact h2
    | (rcases h2 with h | ⟨ha', hb'⟩ | ⟨ha', hb'⟩ <;> subst_vars <;> simp_all [statusReach])

theorem allowedEdge_rank {s t : String} (h : allowedEdge s t) (hne : s ≠ t) :
    statusRank s < statusRank t := by
  rcases h with h | ⟨h1, h2 | h2⟩ | ⟨h1, h2⟩
  · exact absurd h hne
  all_goals subst_vars <;> simp [statusRank]

/-! ## Generic lemmas about `updateFirst` / `deleteFirst` -/

theorem updateFirst_length (p : α → Bool) (f : α → α) (l : List α) :
    (updateFirst p f l).length = l.length := by
  induction l with
  | nil => rfl
  | cons x xs ih => by_cases h : p x <;> simp [updateFirst, h, ih]

/-- Pointwise view of `updateFirst`: every element is unchanged, or is the
image under `f` of an element satisfying `p`. -/
theorem updateFirst_forall₂ {E : α → α → Prop} (p : α → Bool) (f : α → α) (l : List α)
    (hrefl : ∀ x, E x x) (hupd : ∀ x, p x = true → E x (f x)) :
    List.Forall₂ E l (updateFirst p f l) := by
  induction l with
  | nil => exact .nil
  | cons x xs ih =>
    by_cases h : p x
    · rw [updateFirst, if_pos h]
      exact List.Forall₂.cons (hupd x h) (List.forall₂_same.mpr fun y _ => hrefl y)
    · rw [updateFirst, if_neg h]
      exact List.Forall₂.cons (hrefl x) ih

/-- If nothing in the list satisfies `p`, `updateFirst` is the identity. -/
theorem updateFirst_eq_of_not_any (p : α → Bool) (f : α → α) (l : List α)
    (h : ∀ x ∈ l, p x = false) : updateFirst p f l = l := by
  induction l with
  | nil => rfl
  | cons x xs ih =>
    have hx := h x (by simp)
    simp [updateFirst, hx, ih fun y hy => h y (by simp [hy])]

/-- `updateFirst` rewrites the first element that satisfies `p` (the one
`find?` returns) and leaves everything else alone. -/
theorem updateFirst_of_find? (p : α → Bool) (f : α → α) (l : List α) (x : α)
    (h : l.find? p = some x) :
    ∃ l₁ l₂, l = l₁ ++ x :: l₂ ∧ (∀ y ∈ l₁, p y = false) ∧
      updateFirst p f l = l₁ ++ f x :: l₂ := by
  induction l with
  | nil => simp at h
  | cons a as ih =>
    by_cases ha : p a
    · rw [List.find?_cons_of_pos _ ha] at h
      obtain rfl : a = x := by injection h
      refine ⟨[], as, rfl, by simp, ?_⟩
      simp [updateFirst, ha]
    · rw [List.find?_cons_of_neg _ ha] at h
      obtain ⟨l₁, l₂, heq, hnone, hupd⟩ := ih h
      refine ⟨a :: l₁, l₂, by simp [heq], ?_, ?_⟩
      · intro y hy
        rcases List.mem_cons.mp hy with rfl | hy'
        · simpa using ha
        · exact hnone y hy'
      · simp [updateFirst, ha, hupd]

theorem transRel_forall₂ {E : α → α → Prop}
    (htrans : ∀ a b c, E a b → E b c → E a c) :
    ∀ {l l' l'' : List α}, List.Forall₂ E l l' → List.Forall₂ E l' l'' →
      List.Forall₂ E l l'' := by
  intro l l' l'' h1 h2
  induction h1 generalizing l'' with
  | nil => cases h2; exact .nil
  | cons hab h ih =>
    cases h2 with
    | cons hbc h' => exact .cons (htrans _ _ _ hab hbc) (ih h')

/-- Decomposition at the first element `find?` returns. -/
theorem find?_decomp (p : α → Bool) (l : List α) (x : α) (h : l.find? p = some x) :
    ∃ l₁ l₂, l = l₁ ++ x :: l₂ ∧ ∀ y ∈ l₁, p y = false := by
  obtain ⟨l₁, l₂, heq, hnone, _⟩ := updateFirst_of_find? p id l x h
  exact ⟨l₁, l₂, heq, hnone⟩

theorem updateFirst_append_of_none (p : α → Bool) (f : α → α) (l₁ rest : List α)
    (h : ∀ y ∈ l₁, p y = false) :
    updateFirst p f (l₁ ++ rest) = l₁ ++ updateFirst p f rest := by
  induction l₁ with
  | nil => rfl
  | cons a as ih =>
    have ha := h a (by simp)
    simp only [List.cons_append, updateFirst, ha]
    simp [ih fun y hy => h y (by simp [hy])]

theorem find?_append_of_none (p : α → Bool) (l₁ rest : List α)
    (h : ∀ y ∈ l₁, p y = false) :
    (l₁ ++ rest).find? p = rest.find? p := by
  induction l₁ with
  | nil => rfl
  | cons a as ih =>
    have ha := h a (by simp)
    rw [List.cons_append, List.find?_cons_of_neg _ (by simp [ha])]
    exact ih fun y hy => h y (by simp [hy])

/-- Composition of two pointwise list relations. -/
theorem forall₂_compose {α β γ : Type} {R : α → β → Prop} {S : β → γ → Prop} {T : α → γ → Prop}
    (h : ∀ a b c, R a b → S b c → T a c) :
    ∀ {l₁ : List α} {l₂ : List β} {l₃ : List γ},
      List.Forall₂ R l₁ l₂ → List.Forall₂ S l₂ l₃ → List.Forall₂ T l₁ l₃ := by
  intro l₁ l₂ l₃ h12 h23
  induction h12 generalizing l₃ with
  | nil => cases h23; exact .nil
  | cons hab h12' ih =>
    cases h23 with
    | cons hbc h23' => exact .cons (h _ _ _ hab hbc) (ih h23')

/-- When the key of every element is distinct, `updateFirst` keyed on `k`
acts pointwise: the (unique) element with key `k` is rewritten, the rest
stay put. -/
theorem updateFirst_key_forall₂ {κ : Type} [DecidableEq κ] (key : α → κ) (k : κ)
    (f : α → α) (l : List α) (hnd : (l.map key).Nodup) :
    List.Forall₂ (fun x x' => x' = if key x = k then f x else x) l
      (updateFirst (fun x => key x = k) f l) := by
  induction l with
  | nil => exact .nil
  | cons a as ih =>
    simp only [List.map_cons, List.nodup_cons] at hnd
    by_cases ha : key a = k
    · rw [updateFirst, if_pos (by simp [ha])]
      refine List.Forall₂.cons (by simp [ha]) (List.forall₂_same.mpr fun y hy => ?_)
      have : key y ≠ k := fun hk => hnd.1 (by
        subst ha
        exact hk ▸ List.mem_map_of_mem key hy)
      simp [this]
    · rw [updateFirst, if_neg (by simp [ha])]
      exact List.Forall₂.cons (by simp [ha]) (ih hnd.2)

/-- `updateFirst` with a key-preserving rewrite keeps the key column. -/
theorem map_key_updateFirst {κ : Type} (key : α → κ) (p : α → Bool) (f : α → α)
    (l : List α) (h : ∀ x, key (f x) = key x) :
    (updateFirst p f l).map key = l.map key := by
  induction l with
  | nil => rfl
  | cons a as ih => by_cases ha : p a <;> simp [updateFirst, ha, h, ih]


/-! ## Characterization lemmas for the approval transaction -/

theorem approveReadPhase_ok (db : DB) (hr : String) (reqId : Nat) (snap : ApproveSnapshot)
    (h : approveReadPhase db hr reqId = .ok snap) :
    db.requests.find? (fun r => r.id = reqId) = some snap.request ∧
    snap.request.hrEmail = hr ∧ snap.request.requestStatus = "pending" ∧
    db.assets.find? (fun a => a.id = snap.request.assetId) = some snap.asset ∧
    0 < snap.asset.availableQuantity := by
  unfold approveReadPhase at h
  split at h
  · exact absurd h (by simp)
  rename_i request hfind
  split at h
  · exact absurd h (by simp)
  rename_i hown
  split at h
  · exact absurd h (by simp)
  rename_i hpend
  split at h
  · exact absurd h (by simp)
  rename_i asset hassetFind
  split at h
  · exact absurd h (by simp)
  rename_i hqty
  cases h
  exact ⟨hfind, by simpa using hown, by simpa using hpend, hassetFind,
    show 0 < asset.availableQuantity by omega⟩

/-- Everything the write phase does on success, collection by collection. -/
theorem approveWritePhase_ok (db : DB) (hr : String) (now aid fid : Nat)
    (snap : ApproveSnapshot) (db' : DB) (rid : Nat)
    (h : approveWritePhase db hr now aid fid snap = .ok (db', rid)) :
    rid = aid ∧
    db.assets.any (fun a => a.id = snap.asset.id && decide (0 < a.availableQuantity)) = true ∧
    db'.assets = updateFirst (fun a => a.id = snap.asset.id && decide (0 < a.availableQuantity))
      (fun a => { a with availableQuantity := a.availableQuantity - 1 }) db.assets ∧
    (∃ doc : AssignedAsset, db'.assignedAssets = db.assignedAssets ++ [doc] ∧
      doc.id = aid ∧ doc.assetId = some snap.asset.id ∧ doc.status = "assigned" ∧
      doc.employeeEmail = snap.request.requesterEmail) ∧
    db'.requests = updateFirst (fun r => r.id = snap.request.id)
      (fun r => { r with
        requestStatus := "approved"
        approvalDate := some now
        processedBy := some hr }) db.requests ∧
    db'.payments = db.payments ∧
    ((db'.affiliations = db.affiliations ∧ db'.users = db.users ∧
        (db.affiliations.find?
          (fun f => f.employeeEmail = snap.request.requesterEmail && f.hrEmail = hr)).isSome) ∨
      (∃ hrUser aff, db.users.find? (fun u => u.email = hr) = some hrUser ∧
        JsNum.jsGt (.num ((hrUser.currentEmployees + 1 : Int) : ℚ))
          (JsNum.orZero hrUser.packageLimit) = false ∧
        db'.affiliations = db.affiliations ++ [aff] ∧
        db'.users = updateFirst (fun u => u.email = hr)
          (fun u => { u with currentEmployees := u.currentEmployees + 1 }) db.users)) := by
  unfold approveWritePhase at h
  rw [decrementAvailable] at h
  by_cases hany : db.assets.any
      (fun a => a.id = snap.asset.id && decide (0 < a.availableQuantity)) = true
  · rw [if_pos hany] at h
    simp only [] at h
    split at h
    · rename_i hc
      exact absurd hc (by simp)
    split at h
    · rename_i haff
      cases h
      refine ⟨rfl, hany, rfl, ⟨_, rfl, rfl, rfl, rfl, rfl⟩, rfl, rfl, Or.inl ⟨rfl, rfl, ?_⟩⟩
      simp [haff]
    · split at h
      · exact absurd h (by simp)
      rename_i hrUser huser
      split at h
      · exact absurd h (by simp)
      rename_i hcap
      cases h
      exact ⟨rfl, hany, rfl, ⟨_, rfl, rfl, rfl, rfl, rfl⟩, rfl, rfl,
        Or.inr ⟨hrUser, _, huser, by simpa using hcap, rfl, rfl⟩⟩
  · rw [if_neg hany] at h
    simp at h

/-- The write phase can only throw one of its three abort reasons. -/
theorem approveWritePhase_error (db : DB) (hr : String) (now aid fid : Nat)
    (snap : ApproveSnapshot) (e : AppError)
    (h : approveWritePhase db hr now aid fid snap = .error e) :
    e = .decrementConflict ∨ e = .hrUserNotFound ∨ e = .capacityExceeded := by
  unfold approveWritePhase at h
  simp only [] at h
  split at h
  · cases h; exact Or.inl rfl
  split at h
  · exact absurd h (by simp)
  split at h
  · cases h; exact Or.inr (Or.inl rfl)
  split at h
  · cases h; exact Or.inr (Or.inr rfl)
  · exact absurd h (by simp)

/-- On any error the approval route leaves the store untouched and
surfaces the error. -/
theorem approveRequest_error (db : DB) (hr : String) (reqId now aid fid : Nat) (e : AppError)
    (h : approveRequestTx db hr reqId now aid fid = .error e) :
    approveRequest db hr reqId now aid fid = (db, .error e) := by
  unfold approveRequest
  rw [h]

/-- On success the route commits the transaction's final state. -/
theorem approveRequest_ok (db : DB) (hr : String) (reqId now aid fid : Nat) (db' : DB) (rid : Nat)
    (h : approveRequestTx db hr reqId now aid fid = .ok (db', rid)) :
    approveRequest db hr reqId now aid fid = (db', .ok rid) := by
  unfold approveRequest
  rw [h]

/-! ## Frame / characterization lemmas for the other operations -/

theorem createRequest_frame (db : DB) (u : AuthUser) (assetId : Nat) (note : Option String)
    (rid now : Nat) :
    ∃ ext, (createRequest db u assetId note rid now).1 =
      { db with requests := db.requests ++ ext } := by
  unfold createRequest
  split
  · exact ⟨[], by simp⟩
  · split
    · exact ⟨[], by simp⟩
    · exact ⟨[_], rfl⟩

theorem rejectRequest_requests (db : DB) (hr : String) (reqId now : Nat) :
    (rejectRequest db hr reqId now).1 = db ∨
    (∃ request, db.requests.find? (fun r => r.id = reqId) = some request ∧
      request.requestStatus = "pending" ∧
      (rejectRequest db hr reqId now).1 = { db with
        requests := updateFirst (fun r => r.id = request.id)
          (fun r => { r with
            requestStatus := "rejected"
            approvalDate := some now
            processedBy := some hr }) db.requests }) := by
  unfold rejectRequest
  split
  · exact Or.inl rfl
  rename_i request hfind
  split
  · exact Or.inl rfl
  split
  · exact Or.inl rfl
  rename_i hown hpend
  exact Or.inr ⟨request, hfind, by simpa using hpend, rfl⟩

/-- `rejectRequest` refuses a non-pending request with the
`InvalidState`-class error and no state change. -/
theorem rejectRequest_not_pending (db : DB) (hr : String) (reqId now : Nat) (request : Request)
    (hfind : db.requests.find? (fun r => r.id = reqId) = some request)
    (hown : request.hrEmail = hr)
    (hnp : request.requestStatus ≠ "pending") :
    rejectRequest db hr reqId now = (db, .error .requestNotPending) := by
  unfold rejectRequest
  rw [hfind]
  simp only []
  rw [if_neg (by simp [hown]), if_pos (by simpa using hnp)]

/-- `approveRequest` refuses a non-pending request with the
`InvalidState`-class error and no state change. -/
theorem approveRequest_not_pending (db : DB) (hr : String) (reqId now aid fid : Nat)
    (request : Request)
    (hfind : db.requests.find? (fun r => r.id = reqId) = some request)
    (hown : request.hrEmail = hr)
    (hnp : request.requestStatus ≠ "pending") :
    approveRequest db hr reqId now aid fid = (db, .error .requestNotPending) := by
  apply approveRequest_error
  unfold approveRequestTx approveReadPhase
  rw [hfind]
  simp only []
  rw [if_neg (by simp [hown]), if_pos (by simpa using hnp)]

/-- What the return transaction does on success, collection by collection. -/
theorem returnAssignmentTx_ok (db : DB) (u : AuthUser) (assignedId now : Nat) (db' : DB)
    (h : returnAssignmentTx db u assignedId now = .ok db') :
    ∃ assigned asset,
      db.assignedAssets.find? (fun a => a.id = assignedId) = some assigned ∧
      assigned.status = "assigned" ∧
      assigned.assetId.bind (fun aid => db.assets.find? (fun a => a.id = aid)) = some asset ∧
      asset.productType = "Returnable" ∧
      db'.assets = updateFirst (fun a => a.id = asset.id)
        (fun a => { a with availableQuantity := a.availableQuantity + 1 }) db.assets ∧
      db'.assignedAssets = updateFirst (fun a => a.id = assigned.id)
        (fun a => { a with status := "returned", returnDate := some now }) db.assignedAssets ∧
      db'.requests = updateFirst
        (fun r => r.assetId = asset.id && r.requesterEmail = assigned.employeeEmail
          && r.requestStatus = "approved")
        (fun r => { r with requestStatus := "returned" }) db.requests ∧
      db'.affiliations = db.affiliations ∧ db'.users = db.users ∧
      db'.payments = db.payments := by
  unfold returnAssignmentTx at h
  split at h
  · exact absurd h (by simp)
  rename_i assigned hfind
  split at h
  · exact absurd h (by simp)
  rename_i hownNot
  split at h
  · exact absurd h (by simp)
  rename_i hstatus
  split at h
  · exact absurd h (by simp)
  rename_i asset hasset
  split at h
  · exact absurd h (by simp)
  rename_i htype
  cases h
  exact ⟨assigned, asset, hfind, by simpa using hstatus, hasset, by simpa using htype,
    rfl, rfl, rfl, rfl, rfl, rfl⟩

theorem returnAssignment_error (db : DB) (u : AuthUser) (assignedId now : Nat) (e : AppError)
    (h : returnAssignmentTx db u assignedId now = .error e) :
    returnAssignment db u assignedId now = (db, .error e) := by
  unfold returnAssignment
  rw [h]

theorem returnAssignment_ok (db : DB) (u : AuthUser) (assignedId now : Nat) (db' : DB)
    (h : returnAssignmentTx db u assignedId now = .ok db') :
    returnAssignment db u assignedId now = (db', .ok ()) := by
  unfold returnAssignment
  rw [h]

/-! ## Characterization lemmas for offboarding -/

theorem revertOneAssignment_affiliations (e : String) (n : Nat) (db : DB) (a : AssignedAsset) :
    (revertOneAssignment e n db a).affiliations = db.affiliations := by
  unfold revertOneAssignment
  cases a.assetId <;> rfl

theorem revertOneAssignment_users (e : String) (n : Nat) (db : DB) (a : AssignedAsset) :
    (revertOneAssignment e n db a).users = db.users := by
  unfold revertOneAssignment
  cases a.assetId <;> rfl

theorem revertOneAssignment_payments (e : String) (n : Nat) (db : DB) (a : AssignedAsset) :
    (revertOneAssignment e n db a).payments = db.payments := by
  unfold revertOneAssignment
  cases a.assetId <;> rfl

theorem fold_revert_affiliations (e : String) (n : Nat) (l : List AssignedAsset) :
    ∀ db : DB, (l.foldl (revertOneAssignment e n) db).affiliations = db.affiliations := by
  induction l with
  | nil => intro db; rfl
  | cons a as ih =>
    intro db
    rw [List.foldl_cons, ih, revertOneAssignment_affiliations]

theorem fold_revert_users (e : String) (n : Nat) (l : List AssignedAsset) :
    ∀ db : DB, (l.foldl (revertOneAssignment e n) db).users = db.users := by
  induction l with
  | nil => intro db; rfl
  | cons a as ih =>
    intro db
    rw [List.foldl_cons, ih, revertOneAssignment_users]

theorem fold_revert_payments (e : String) (n : Nat) (l : List AssignedAsset) :
    ∀ db : DB, (l.foldl (revertOneAssignment e n) db).payments = db.payments := by
  induction l with
  | nil => intro db; rfl
  | cons a as ih =>
    intro db
    rw [List.foldl_cons, ih, revertOneAssignment_payments]

/-- Collectionwise description of a successful offboarding transaction. -/
theorem removeAffiliationTx_ok (db : DB) (hr emp : String) (now : Nat) (db' : DB) (k : Nat)
    (h : removeAffiliationTx db hr emp now = .ok (db', k)) :
    ∃ affiliation,
      db.affiliations.find?
        (fun f => f.employeeEmail = emp && f.hrEmail = hr) = some affiliation ∧
      k = (db.assignedAssets.filter
        (fun a => a.employeeEmail = emp && a.hrEmail = hr && a.status = "assigned")).length ∧
      db'.affiliations = deleteFirst (fun f => f.id = affiliation.id) db.affiliations ∧
      db'.users = updateFirst (fun u => u.email = hr)
        (fun u => { u with currentEmployees := u.currentEmployees - 1 }) db.users ∧
      db'.assets = ((db.assignedAssets.filter
        (fun a => a.employeeEmail = emp && a.hrEmail = hr && a.status = "assigned")).foldl
          (revertOneAssignment emp now) db).assets ∧
      db'.assignedAssets = ((db.assignedAssets.filter
        (fun a => a.employeeEmail = emp && a.hrEmail = hr && a.status = "assigned")).foldl
          (revertOneAssignment emp now) db).assignedAssets ∧
      db'.requests = ((db.assignedAssets.filter
        (fun a => a.employeeEmail = emp && a.hrEmail = hr && a.status = "assigned")).foldl
          (revertOneAssignment emp now) db).requests ∧
      db'.payments = db.payments := by
  unfold removeAffiliationTx at h
  split at h
  · exact absurd h (by simp)
  rename_i affiliation hfind
  simp only [] at h
  cases h
  refine ⟨affiliation, hfind, rfl, ?_, ?_, rfl, rfl, rfl, ?_⟩
  · rw [fold_revert_affiliations]
  · rw [fold_revert_users]
  · rw [fold_revert_payments]

theorem removeAffiliation_error (db : DB) (hr rawEmp : String) (now : Nat) (e : AppError)
    (hne : jsToLowerCase rawEmp ≠ "")
    (h : removeAffiliationTx db hr (jsToLowerCase rawEmp) now = .error e) :
    removeAffiliation db hr rawEmp now = (db, .error e) := by
  unfold removeAffiliation
  rw [if_neg hne, h]

theorem removeAffiliation_ok (db : DB) (hr rawEmp : String) (now : Nat) (db' : DB) (k : Nat)
    (hne : jsToLowerCase rawEmp ≠ "")
    (h : removeAffiliationTx db hr (jsToLowerCase rawEmp) now = .ok (db', k)) :
    removeAffiliation db hr rawEmp now = (db', .ok k) := by
  unfold removeAffiliation
  rw [if_neg hne, h]

/-- Forward evaluation of the read phase when every check passes. -/
theorem approveReadPhase_eval (db : DB) (hr : String) (reqId : Nat)
    (request : Request) (asset : Asset)
    (hreq : db.requests.find? (fun r => r.id = reqId) = some request)
    (hown : request.hrEmail = hr)
    (hpend : request.requestStatus = "pending")
    (hasset : db.assets.find? (fun a => a.id = request.assetId) = some asset)
    (hqty : 0 < asset.availableQuantity) :
    approveReadPhase db hr reqId = .ok ⟨request, asset⟩ := by
  unfold approveReadPhase
  rw [hreq]
  simp only []
  rw [if_neg (by simp [hown]), if_neg (by simp [hpend]), hasset]
  simp only []
  rw [if_neg (by omega)]

/-- When the requester has no affiliation and the HR account is at its
package limit, the write phase throws `CapacityExceeded` after its
intermediate writes, so the transaction rolls them all back. -/
theorem approveWritePhase_capacity_abort (db : DB) (hr : String) (now aid fid : Nat)
    (snap : ApproveSnapshot) (hrUser : User)
    (hmem : snap.asset ∈ db.assets)
    (hqty : 0 < snap.asset.availableQuantity)
    (hnoaff : db.affiliations.find?
      (fun f => f.employeeEmail = snap.request.requesterEmail && f.hrEmail = hr) = none)
    (huser : db.users.find? (fun u => u.email = hr) = some hrUser)
    (hcap : JsNum.jsGt (.num ((hrUser.currentEmployees + 1 : Int) : ℚ))
      (JsNum.orZero hrUser.packageLimit) = true) :
    approveWritePhase db hr now aid fid snap = .error .capacityExceeded := by
  unfold approveWritePhase
  simp only []
  have hany : (db.assets.any
      (fun a => a.id = snap.asset.id && decide (0 < a.availableQuantity))) = true :=
    List.any_eq_true.mpr ⟨snap.asset, hmem, by simp [hqty]⟩
  rw [decrementAvailable, if_pos hany]
  simp only []
  rw [if_neg (by simp)]
  rw [hnoaff]
  simp only []
  rw [huser]
  simp only []
  rw [if_pos hcap]

/-! ## Claim theorems -/

/-- C8: for every existing asset, an employee's `createRequest` succeeds
and appends a `pending` request whose HR identity and tenant label are
snapshotted from the asset — with no constraint on, and no change to,
`availableQuantity` (in particular it may be 0). -/
theorem createRequest_always_pending_and_snapshots (db : DB) (user : AuthUser)
    (assetId : Nat) (note : Option String) (rid now : Nat) (asset : Asset)
    (hrole : user.role = "employee")
    (hfind : db.assets.find? (fun a => a.id = assetId) = some asset) :
    ∃ r : Request,
      createRequest db user assetId note rid now =
        ({ db with requests := db.requests ++ [r] }, .ok r) ∧
      r.requestStatus = "pending" ∧
      r.hrEmail = asset.hrEmail ∧
      r.companyName = jsOrNull asset.companyName ∧
      (createRequest db user assetId note rid now).1.assets = db.assets := by
  unfold createRequest
  rw [if_neg (by simp [hrole]), hfind]
  simp only []
  exact ⟨_, rfl, rfl, rfl, rfl, trivial⟩

/-- Witness for C8 at a concrete store whose only asset has
`availableQuantity = 0`. -/
theorem createRequest_always_pending_and_snapshots_witness :
    (⟨"Bob", "bob@x", "employee"⟩ : AuthUser).role = "employee" ∧
    (DB.mk [⟨1, "Laptop", none, "Returnable", 0, "hr@x", some "ACME"⟩] [] [] [] [] []).assets.find?
      (fun a => a.id = 1) = some ⟨1, "Laptop", none, "Returnable", 0, "hr@x", some "ACME"⟩ ∧
    ∃ r : Request,
      createRequest (DB.mk [⟨1, "Laptop", none, "Returnable", 0, "hr@x", some "ACME"⟩] [] [] [] [] [])
        ⟨"Bob", "bob@x", "employee"⟩ 1 none 10 5 =
        ({ DB.mk [⟨1, "Laptop", none, "Returnable", 0, "hr@x", some "ACME"⟩] [] [] [] [] [] with
          requests := (DB.mk [⟨1, "Laptop", none, "Returnable", 0, "hr@x", some "ACME"⟩] [] [] [] [] []).requests ++ [r] }, .ok r) ∧
      r.requestStatus = "pending" ∧
      r.hrEmail = (⟨1, "Laptop", none, "Returnable", 0, "hr@x", some "ACME"⟩ : Asset).hrEmail ∧
      r.companyName = jsOrNull (⟨1, "Laptop", none, "Returnable", 0, "hr@x", some "ACME"⟩ : Asset).companyName ∧
      (createRequest (DB.mk [⟨1, "Laptop", none, "Returnable", 0, "hr@x", some "ACME"⟩] [] [] [] [] [])
        ⟨"Bob", "bob@x", "employee"⟩ 1 none 10 5).1.assets =
        (DB.mk [⟨1, "Laptop", none, "Returnable", 0, "hr@x", some "ACME"⟩] [] [] [] [] []).assets :=
  ⟨rfl, by decide,
    createRequest_always_pending_and_snapshots
      (DB.mk [⟨1, "Laptop", none, "Returnable", 0, "hr@x", some "ACME"⟩] [] [] [] [] [])
      ⟨"Bob", "bob@x", "employee"⟩ 1 none 10 5
      ⟨1, "Laptop", none, "Returnable", 0, "hr@x", some "ACME"⟩ rfl (by decide)⟩

/-- C1: when `approveRequest` reaches the capacity check (no existing
affiliation) and `currentEmployees + 1 > packageLimit`, the entire
transaction aborts: the store — asset quantities, the request status, the
assignment, affiliation and user collections — is returned unchanged, and
the caller gets the `CapacityExceeded` error. -/
theorem approveRequest_capacity_atomic_abort (db : DB) (hr : String)
    (reqId now aid fid : Nat) (request : Request) (asset : Asset) (hrUser : User)
    (hreq : db.requests.find? (fun r => r.id = reqId) = some request)
    (hown : request.hrEmail = hr)
    (hpend : request.requestStatus = "pending")
    (hasset : db.assets.find? (fun a => a.id = request.assetId) = some asset)
    (hqty : 0 < asset.availableQuantity)
    (hnoaff : db.affiliations.find?
      (fun f => f.employeeEmail = request.requesterEmail && f.hrEmail = hr) = none)
    (huser : db.users.find? (fun u => u.email = hr) = some hrUser)
    (hcap : JsNum.jsGt (.num ((hrUser.currentEmployees + 1 : Int) : ℚ))
      (JsNum.orZero hrUser.packageLimit) = true) :
    approveRequest db hr reqId now aid fid = (db, .error .capacityExceeded) := by
  apply approveRequest_error
  unfold approveRequestTx
  rw [approveReadPhase_eval db hr reqId request asset hreq hown hpend hasset hqty]
  exact approveWritePhase_capacity_abort db hr now aid fid ⟨request, asset⟩ hrUser
    (List.mem_of_find?_eq_some hasset) hqty hnoaff huser hcap

/-- Witness for C1: HR at `packageLimit = 1 = currentEmployees` approves a
pending request from a brand-new employee; the call returns the store
unchanged together with `CapacityExceeded`. -/
theorem approveRequest_capacity_atomic_abort_witness :
    approveRequest
      (DB.mk [⟨1, "Laptop", none, "Returnable", 3, "hr@x", none⟩]
        [⟨10, 1, "Laptop", "Returnable", "Bob", "bob@x", "hr@x", none, none, 4, none, "pending", none, none⟩]
        [] [] [⟨"hr@x", .num 1, 1, none⟩] [])
      "hr@x" 10 5 20 30 =
      (DB.mk [⟨1, "Laptop", none, "Returnable", 3, "hr@x", none⟩]
        [⟨10, 1, "Laptop", "Returnable", "Bob", "bob@x", "hr@x", none, none, 4, none, "pending", none, none⟩]
        [] [] [⟨"hr@x", .num 1, 1, none⟩] [],
       .error .capacityExceeded) :=
  approveRequest_capacity_atomic_abort
    (DB.mk [⟨1, "Laptop", none, "Returnable", 3, "hr@x", none⟩]
      [⟨10, 1, "Laptop", "Returnable", "Bob", "bob@x", "hr@x", none, none, 4, none, "pending", none, none⟩]
      [] [] [⟨"hr@x", .num 1, 1, none⟩] [])
    "hr@x" 10 5 20 30
    ⟨10, 1, "Laptop", "Returnable", "Bob", "bob@x", "hr@x", none, none, 4, none, "pending", none, none⟩
    ⟨1, "Laptop", none, "Returnable", 3, "hr@x", none⟩
    ⟨"hr@x", .num 1, 1, none⟩
    (by decide) rfl rfl (by decide) (by decide) (by decide) (by decide) (by decide)

/-- C7: a return attempt against an assignment whose underlying asset is
`Non-returnable` never commits anything — the store comes back unchanged
and the caller gets an error; when the caller owns the assignment and it
is currently `assigned` (so the type check is what fails), that error is
precisely the `InvalidOperation`-class `nonReturnable`. -/
theorem returnAssignment_nonReturnable_rejected (db : DB) (user : AuthUser)
    (assignedId now : Nat) (assigned : AssignedAsset) (asset : Asset)
    (hfind : db.assignedAssets.find? (fun a => a.id = assignedId) = some assigned)
    (hasset : assigned.assetId.bind (fun aid => db.assets.find? (fun a => a.id = aid)) = some asset)
    (htype : asset.productType = "Non-returnable") :
    (returnAssignment db user assignedId now).1 = db ∧
    (∃ e, (returnAssignment db user assignedId now).2 = .error e) ∧
    (jsToLowerCase assigned.employeeEmail = jsToLowerCase user.email →
      assigned.status = "assigned" →
      returnAssignment db user assignedId now = (db, .error .nonReturnable)) := by
  have htx : ∃ e, returnAssignmentTx db user assignedId now = .error e := by
    unfold returnAssignmentTx
    rw [hfind]
    simp only []
    by_cases hownb : jsToLowerCase assigned.employeeEmail ≠ jsToLowerCase user.email
    · rw [if_pos hownb]
      exact ⟨_, rfl⟩
    · rw [if_neg hownb]
      by_cases hst : assigned.status ≠ "assigned"
      · rw [if_pos hst]
        exact ⟨_, rfl⟩
      · rw [if_neg hst, hasset]
        simp only []
        rw [if_pos (by simp [htype])]
        exact ⟨_, rfl⟩
  obtain ⟨e, he⟩ := htx
  have heq := returnAssignment_error db user assignedId now e he
  refine ⟨by rw [heq], ⟨e, by rw [heq]⟩, fun hown hst => ?_⟩
  apply returnAssignment_error
  unfold returnAssignmentTx
  rw [hfind]
  simp only []
  rw [if_neg (by simp [hown]), if_neg (by simp [hst]), hasset]
  simp only []
  rw [if_pos (by simp [htype])]

/-- Witness for C7: Bob returns his own `assigned` pen, a
`Non-returnable` asset; the call fails with `nonReturnable` and the store
is unchanged. -/
theorem returnAssignment_nonReturnable_rejected_witness :
    returnAssignment
      (DB.mk [⟨1, "Pen", none, "Non-returnable", 4, "hr@x", none⟩] []
        [⟨20, some 1, "Pen", none, "Non-returnable", "bob@x", "Bob", "hr@x", none, 4, none, "assigned"⟩]
        [] [] [])
      ⟨"Bob", "bob@x", "employee"⟩ 20 9 =
      (DB.mk [⟨1, "Pen", none, "Non-returnable", 4, "hr@x", none⟩] []
        [⟨20, some 1, "Pen", none, "Non-returnable", "bob@x", "Bob", "hr@x", none, 4, none, "assigned"⟩]
        [] [] [],
       .error .nonReturnable) := by
  have h := returnAssignment_nonReturnable_rejected
    (DB.mk [⟨1, "Pen", none, "Non-returnable", 4, "hr@x", none⟩] []
      [⟨20, some 1, "Pen", none, "Non-returnable", "bob@x", "Bob", "hr@x", none, 4, none, "assigned"⟩]
      [] [] [])
    ⟨"Bob", "bob@x", "employee"⟩ 20 9
    ⟨20, some 1, "Pen", none, "Non-returnable", "bob@x", "Bob", "hr@x", none, 4, none, "assigned"⟩
    ⟨1, "Pen", none, "Non-returnable", 4, "hr@x", none⟩
    (by decide) (by decide) rfl
  exact h.2.2 rfl rfl

/-- Signature verification happens before any processing: an event that
fails it is rejected with 400 and the store is untouched. -/
theorem stripeWebhook_badSignature (db : DB) (ev : StripeEvent) (now : Nat)
    (h : ev.sigValid = false) :
    stripeWebhookHandler db ev now = (db, .badSignature) := by
  unfold stripeWebhookHandler
  rw [if_pos (by simp [h])]

/-- C9 (amended with the malformed-`packageId` proviso): a verified
completed-checkout event whose `packageId` metadata is absent or a
well-formed ObjectId, carrying a truthy payer identity and a granted limit
coercing to a positive number, atomically appends a PaymentRecord and
overwrites (rather than adds to) the payer's `packageLimit`, setting a
subscription label; and any event failing signature verification is
rejected with 400 before any write. -/
theorem stripeWebhook_grant_overwrites (db : DB) (ev : StripeEvent) (now : Nat)
    (e : String) (n : ℚ)
    (hsig : ev.sigValid = true)
    (htype : ev.eventType = "checkout.session.completed")
    (hpid : strTruthy ev.metadata.packageId = false ∨
      ∃ s, ev.metadata.packageId = some s ∧ isValidObjectId s = true)
    (hhr : ev.metadata.hrEmail = some e) (he : e ≠ "")
    (hlim : jsNumberOrZero ev.metadata.employeeLimit = .num n) (hn : 0 < n) :
    (∃ pid,
      stripeWebhookHandler db ev now =
        ({ db with
            payments := db.payments ++
              [⟨jsOrNull ev.metadata.hrEmail, pid, jsOrNull ev.metadata.packageName,
                .num n, ev.amountTotal, ev.currency, ev.sessionId, now, "completed"⟩]
            users := updateFirst (fun u => some u.email = ev.metadata.hrEmail)
              (fun u => { u with
                packageLimit := .num n
                subscription := some ((jsOrNull ev.metadata.packageName).getD "upgraded") })
              db.users },
         .received)) ∧
    (∀ (db₀ : DB) (ev₀ : StripeEvent), ev₀.sigValid = false →
      stripeWebhookHandler db₀ ev₀ now = (db₀, .badSignature)) := by
  refine ⟨?_, fun db₀ ev₀ h₀ => stripeWebhook_badSignature db₀ ev₀ now h₀⟩
  unfold stripeWebhookHandler
  rw [if_neg (by simp [hsig]), if_pos htype]
  simp only []
  rcases hpid with hT | ⟨s, hs, hvalid⟩
  · rw [if_neg (by simp [hT])]
    simp only [hlim, hhr]
    rw [if_pos (by simp [strTruthy, he, JsNum.gtZero, hn])]
    exact ⟨none, by simp [hhr, hlim]⟩
  · have hsne : s ≠ "" := by
      intro hempty
      rw [hempty] at hvalid
      exact absurd hvalid (by decide)
    rw [hs]
    rw [if_pos (by simp [strTruthy, hsne])]
    simp only []
    rw [if_pos hvalid]
    simp only [hlim, hhr]
    rw [if_pos (by simp [strTruthy, he, JsNum.gtZero, hn])]
    exact ⟨some s, by simp [hhr, hlim, hs]⟩

/-- Witness for C9 (amended): a Gold-package payment for `hr@x` with a
granted limit of 5 and no `packageId` metadata. -/
theorem stripeWebhook_grant_overwrites_witness :
    (∃ pid,
      stripeWebhookHandler (DB.mk [] [] [] [] [⟨"hr@x", .num 1, 0, none⟩] [])
        ⟨true, "checkout.session.completed", ⟨some "hr@x", none, some "Gold", some "5"⟩,
          some 500, some "usd", "cs_1"⟩ 3 =
        ({ DB.mk [] [] [] [] [⟨"hr@x", .num 1, 0, none⟩] [] with
            payments := (DB.mk [] [] [] [] [⟨"hr@x", .num 1, 0, none⟩] []).payments ++
              [⟨jsOrNull (some "hr@x"), pid, jsOrNull (some "Gold"),
                .num 5, some 500, some "usd", "cs_1", 3, "completed"⟩]
            users := updateFirst (fun u => some u.email = some "hr@x")
              (fun u => { u with
                packageLimit := .num 5
                subscription := some ((jsOrNull (some "Gold")).getD "upgraded") })
              (DB.mk [] [] [] [] [⟨"hr@x", .num 1, 0, none⟩] []).users },
         .received)) ∧
    (∀ (db₀ : DB) (ev₀ : StripeEvent), ev₀.sigValid = false →
      stripeWebhookHandler db₀ ev₀ 3 = (db₀, .badSignature)) :=
  stripeWebhook_grant_overwrites (DB.mk [] [] [] [] [⟨"hr@x", .num 1, 0, none⟩] [])
    ⟨true, "checkout.session.completed", ⟨some "hr@x", none, some "Gold", some "5"⟩,
      some 500, some "usd", "cs_1"⟩ 3 "hr@x" 5
    rfl rfl (Or.inl (by decide)) rfl (by decide) (by decide) (by decide)

/-- C9 counterexample: a validly-signed completed-checkout event with a
payer (`hr@x`) and a positive granted limit (5) but a malformed
`packageId` string — `new ObjectId('bad')` throws inside the transaction,
so the handler answers 500 and performs no write at all: no PaymentRecord
is appended and no `packageLimit` is overwritten, contrary to the claim's
"for every verified payment-completion event". -/
theorem stripeWebhook_malformed_packageId_cex :
    stripeWebhookHandler (DB.mk [] [] [] [] [⟨"hr@x", .num 1, 0, none⟩] [])
      ⟨true, "checkout.session.completed", ⟨some "hr@x", some "bad", some "Gold", some "5"⟩,
        some 500, some "usd", "cs_1"⟩ 3 =
      (DB.mk [] [] [] [] [⟨"hr@x", .num 1, 0, none⟩] [], .processingError) := by
  decide

/-- C10 (amended with the malformed-`packageId` proviso): a verified
completed-checkout event whose `packageId` is absent or well-formed but
which lacks a truthy payer identity, or whose granted limit coerces to 0,
a negative number or `NaN`, still appends a PaymentRecord carrying the
coerced limit and answers success, while every user document — in
particular `packageLimit` and `subscription` — stays untouched. -/
theorem stripeWebhook_degenerate_inserts_only (db : DB) (ev : StripeEvent) (now : Nat)
    (hsig : ev.sigValid = true)
    (htype : ev.eventType = "checkout.session.completed")
    (hpid : strTruthy ev.metadata.packageId = false ∨
      ∃ s, ev.metadata.packageId = some s ∧ isValidObjectId s = true)
    (hdeg : strTruthy ev.metadata.hrEmail = false ∨
      (jsNumberOrZero ev.metadata.employeeLimit).gtZero = false) :
    ∃ pid,
      stripeWebhookHandler db ev now =
        ({ db with
            payments := db.payments ++
              [⟨jsOrNull ev.metadata.hrEmail, pid, jsOrNull ev.metadata.packageName,
                jsNumberOrZero ev.metadata.employeeLimit, ev.amountTotal, ev.currency,
                ev.sessionId, now, "completed"⟩] },
         .received) ∧
      (stripeWebhookHandler db ev now).1.users = db.users := by
  have hguard : (strTruthy ev.metadata.hrEmail
      && (jsNumberOrZero ev.metadata.employeeLimit).gtZero) = false := by
    rcases hdeg with h | h <;> simp [h]
  unfold stripeWebhookHandler
  rw [if_neg (by simp [hsig]), if_pos htype]
  simp only []
  rcases hpid with hT | ⟨s, hs, hvalid⟩
  · rw [if_neg (by simp [hT])]
    simp only []
    rw [if_neg (by simp [hguard])]
    exact ⟨none, rfl, rfl⟩
  · have hsne : s ≠ "" := by
      intro hempty
      rw [hempty] at hvalid
      exact absurd hvalid (by decide)
    rw [hs]
    rw [if_pos (by simp [strTruthy, hsne])]
    simp only []
    rw [if_pos hvalid]
    simp only []
    rw [if_neg (by simp [hguard])]
    exact ⟨some s, by simp [hs], rfl⟩

/-- Witness for C10 (amended): a verified completed-checkout event with no
payer identity and a granted limit string `0`. -/
theorem stripeWebhook_degenerate_inserts_only_witness :
    ∃ pid,
      stripeWebhookHandler (DB.mk [] [] [] [] [⟨"hr@x", .num 7, 2, some "Gold"⟩] [])
        ⟨true, "checkout.session.completed", ⟨none, none, none, some "0"⟩,
          none, none, "cs_2"⟩ 4 =
        ({ DB.mk [] [] [] [] [⟨"hr@x", .num 7, 2, some "Gold"⟩] [] with
            payments := (DB.mk [] [] [] [] [⟨"hr@x", .num 7, 2, some "Gold"⟩] []).payments ++
              [⟨jsOrNull none, pid, jsOrNull none, jsNumberOrZero (some "0"),
                none, none, "cs_2", 4, "completed"⟩] },
         .received) ∧
      (stripeWebhookHandler (DB.mk [] [] [] [] [⟨"hr@x", .num 7, 2, some "Gold"⟩] [])
        ⟨true, "checkout.session.completed", ⟨none, none, none, some "0"⟩,
          none, none, "cs_2"⟩ 4).1.users =
        (DB.mk [] [] [] [] [⟨"hr@x", .num 7, 2, some "Gold"⟩] []).users :=
  stripeWebhook_degenerate_inserts_only (DB.mk [] [] [] [] [⟨"hr@x", .num 7, 2, some "Gold"⟩] [])
    ⟨true, "checkout.session.completed", ⟨none, none, none, some "0"⟩, none, none, "cs_2"⟩ 4
    rfl rfl (Or.inl (by decide)) (Or.inr (by decide))

/-- C10 counterexample: a validly-signed completed-checkout event that
lacks an HR identity (so it is in the claim's scope) but carries a
malformed `packageId` — the handler answers 500 and inserts nothing,
contradicting "still inserts a PaymentRecord and responds with
success". -/
theorem stripeWebhook_degenerate_malformed_cex :
    stripeWebhookHandler (DB.mk [] [] [] [] [⟨"hr@x", .num 7, 2, some "Gold"⟩] [])
      ⟨true, "checkout.session.completed", ⟨none, some "xyz", none, none⟩,
        none, none, "cs_3"⟩ 4 =
      (DB.mk [] [] [] [] [⟨"hr@x", .num 7, 2, some "Gold"⟩] [], .processingError) := by
  decide

/-! ## The capacity invariant (C2) -/

theorem capacityOk_users (db db' : DB) (h : db'.users = db.users) (hinv : capacityOk db) :
    capacityOk db' := by
  intro u hu
  exact hinv u (h ▸ hu)

theorem mem_updateFirst (p : α → Bool) (f : α → α) (l : List α) (y : α)
    (hy : y ∈ updateFirst p f l) : y ∈ l ∨ ∃ x ∈ l, y = f x := by
  induction l with
  | nil => cases hy
  | cons a as ih =>
    by_cases ha : p a
    · rw [updateFirst, if_pos ha] at hy
      rcases List.mem_cons.mp hy with rfl | h
      · exact Or.inr ⟨a, by simp⟩
      · exact Or.inl (by simp [h])
    · rw [updateFirst, if_neg ha] at hy
      rcases List.mem_cons.mp hy with rfl | h
      · exact Or.inl (by simp)
      · rcases ih h with h' | ⟨x, hx, hfx⟩
        · exact Or.inl (by simp [h'])
        · exact Or.inr ⟨x, by simp [hx], hfx⟩

/-- A successful JS capacity check lets the employee count grow by one
without leaving the invariant (the `-Infinity` and `NaN` limit cases are
ruled out by the invariant itself). -/
theorem jsLe_inc (c : Int) (lim : JsNum)
    (hcap : JsNum.jsGt (.num ((c + 1 : Int) : ℚ)) (JsNum.orZero lim) = false)
    (hle : JsNum.jsLe (.num ((c : Int) : ℚ)) lim = true) :
    JsNum.jsLe (.num ((c + 1 : Int) : ℚ)) lim = true := by
  cases lim with
  | num q =>
    simp only [JsNum.orZero, JsNum.jsGt, JsNum.jsLe, decide_eq_false_iff_not,
      decide_eq_true_eq, not_lt] at *
    exact hcap
  | inf => rfl
  | negInf => simp [JsNum.jsLe] at hle
  | nan => simp [JsNum.jsLe] at hle

/-- A decrement of the employee count preserves the invariant. -/
theorem jsLe_dec (c : Int) (lim : JsNum)
    (hle : JsNum.jsLe (.num ((c : Int) : ℚ)) lim = true) :
    JsNum.jsLe (.num ((c - 1 : Int) : ℚ)) lim = true := by
  cases lim with
  | num q =>
    simp only [JsNum.jsLe, decide_eq_true_eq] at *
    push_cast at *
    linarith
  | inf => rfl
  | negInf => simp [JsNum.jsLe] at hle
  | nan => simp [JsNum.jsLe] at hle

theorem capacityOk_inc (users : List User) (hr : String) (hrUser : User)
    (hfind : users.find? (fun u => u.email = hr) = some hrUser)
    (hcap : JsNum.jsGt (.num ((hrUser.currentEmployees + 1 : Int) : ℚ))
      (JsNum.orZero hrUser.packageLimit) = false)
    (hinv : ∀ u ∈ users,
      JsNum.jsLe (.num ((u.currentEmployees : Int) : ℚ)) u.packageLimit = true) :
    ∀ u ∈ updateFirst (fun u => u.email = hr)
      (fun u => { u with currentEmployees := u.currentEmployees + 1 }) users,
      JsNum.jsLe (.num ((u.currentEmployees : Int) : ℚ)) u.packageLimit = true := by
  obtain ⟨l₁, l₂, heq, -, hupd⟩ := updateFirst_of_find?
    (fun u => u.email = hr) (fun u => { u with currentEmployees := u.currentEmployees + 1 })
    users hrUser hfind
  rw [hupd]
  intro u hu
  rcases List.mem_append.mp hu with h1 | h2
  · exact hinv u (heq ▸ List.mem_append_left _ h1)
  · rcases List.mem_cons.mp h2 with rfl | h3
    · have hle := hinv hrUser (heq ▸ List.mem_append_right _ (List.mem_cons_self _ _))
      simpa using jsLe_inc hrUser.currentEmployees hrUser.packageLimit hcap hle
    · exact hinv u (heq ▸ List.mem_append_right _ (List.mem_cons_of_mem _ h3))

theorem capacityOk_dec (users : List User) (hr : String)
    (hinv : ∀ u ∈ users,
      JsNum.jsLe (.num ((u.currentEmployees : Int) : ℚ)) u.packageLimit = true) :
    ∀ u ∈ updateFirst (fun u => u.email = hr)
      (fun u => { u with currentEmployees := u.currentEmployees - 1 }) users,
      JsNum.jsLe (.num ((u.currentEmployees : Int) : ℚ)) u.packageLimit = true := by
  intro u hu
  rcases mem_updateFirst _ _ _ _ hu with h | ⟨x, hx, rfl⟩
  · exact hinv u h
  · have hle := hinv x hx
    simpa using jsLe_dec x.currentEmployees x.packageLimit hle

theorem createRequest_users (db : DB) (u : AuthUser) (assetId : Nat) (note : Option String)
    (rid now : Nat) : (createRequest db u assetId note rid now).1.users = db.users := by
  obtain ⟨ext, h⟩ := createRequest_frame db u assetId note rid now
  rw [h]

theorem rejectRequest_users (db : DB) (hr : String) (reqId now : Nat) :
    (rejectRequest db hr reqId now).1.users = db.users := by
  rcases rejectRequest_requests db hr reqId now with h | ⟨r, -, -, h⟩ <;> rw [h]

theorem returnAssignment_users (db : DB) (u : AuthUser) (assignedId now : Nat) :
    (returnAssignment db u assignedId now).1.users = db.users := by
  unfold returnAssignment
  split
  · rename_i db' heq
    obtain ⟨-, -, -, -, -, -, -, -, -, -, husers, -⟩ :=
      returnAssignmentTx_ok db u assignedId now db' heq
    exact husers
  · rfl

theorem approveRequest_users (db : DB) (hr : String) (reqId now aid fid : Nat) :
    (approveRequest db hr reqId now aid fid).1.users = db.users ∨
    ∃ hrUser, db.users.find? (fun u => u.email = hr) = some hrUser ∧
      JsNum.jsGt (.num ((hrUser.currentEmployees + 1 : Int) : ℚ))
        (JsNum.orZero hrUser.packageLimit) = false ∧
      (approveRequest db hr reqId now aid fid).1.users =
        updateFirst (fun u => u.email = hr)
          (fun u => { u with currentEmployees := u.currentEmployees + 1 }) db.users := by
  unfold approveRequest
  split
  · rename_i db' rid heq
    unfold approveRequestTx at heq
    split at heq
    · exact absurd heq (by simp)
    rename_i snap hread
    obtain ⟨-, -, -, -, -, -, hlast⟩ :=
      approveWritePhase_ok db hr now aid fid snap db' rid heq
    rcases hlast with ⟨-, husers, -⟩ | ⟨hrUser, aff, hfind, hcap, -, husers⟩
    · exact Or.inl husers
    · exact Or.inr ⟨hrUser, hfind, hcap, husers⟩
  · exact Or.inl rfl

theorem removeAffiliation_users (db : DB) (hr raw : String) (now : Nat) :
    (removeAffiliation db hr raw now).1.users = db.users ∨
    (removeAffiliation db hr raw now).1.users =
      updateFirst (fun u => u.email = hr)
        (fun u => { u with currentEmployees := u.currentEmployees - 1 }) db.users := by
  unfold removeAffiliation
  simp only []
  split
  · exact Or.inl rfl
  split
  · rename_i db' k heq
    obtain ⟨aff, -, -, -, husers, -⟩ := removeAffiliationTx_ok db hr _ now db' k heq
    exact Or.inr husers
  · exact Or.inl rfl

/-- Every non-payment operation preserves the capacity invariant. -/
theorem capacityOk_applyOp (db : DB) (op : Op) (hinv : capacityOk db)
    (hnp : op.isPayment = false) : capacityOk (applyOp db op) := by
  cases op with
  | create u assetId note rid now =>
    exact capacityOk_users db _ (createRequest_users db u assetId note rid now) hinv
  | reject hr reqId now =>
    exact capacityOk_users db _ (rejectRequest_users db hr reqId now) hinv
  | giveBack u assignedId now =>
    exact capacityOk_users db _ (returnAssignment_users db u assignedId now) hinv
  | approve hr reqId now aid fid =>
    rcases approveRequest_users db hr reqId now aid fid with h | ⟨hrUser, hfind, hcap, h⟩
    · exact capacityOk_users db _ h hinv
    · intro u hu
      rw [show (applyOp db (.approve hr reqId now aid fid)) =
        (approveRequest db hr reqId now aid fid).1 from rfl, h] at hu
      exact capacityOk_inc db.users hr hrUser hfind hcap hinv u hu
  | removeAff hr raw now =>
    rcases removeAffiliation_users db hr raw now with h | h
    · exact capacityOk_users db _ h hinv
    · intro u hu
      rw [show (applyOp db (.removeAff hr raw now)) =
        (removeAffiliation db hr raw now).1 from rfl, h] at hu
      exact capacityOk_dec db.users hr hinv u hu
  | payment ev now => cases hnp

theorem capacityOk_applyOps (db : DB) (ops : List Op) (hinv : capacityOk db)
    (hops : ∀ op ∈ ops, op.isPayment = false) : capacityOk (applyOps db ops) := by
  induction ops generalizing db with
  | nil => exact hinv
  | cons op rest ih =>
    rw [applyOps, List.foldl_cons]
    exact ih (applyOp db op) (capacityOk_applyOp db op hinv (hops op (by simp)))
      (fun o ho => hops o (by simp [ho]))

/-! ## The last-unit race (C4) -/

/-- Two approval transactions whose read phases both ran against the same
snapshot `db` (the genuinely concurrent schedule), with their write phases
then committing one at a time against the current state; a write phase
that throws rolls its own transaction back. -/
def approveRaceWrites (db : DB) (hrA : String) (nowA aidA fidA : Nat) (snapA : ApproveSnapshot)
    (hrB : String) (nowB aidB fidB : Nat) (snapB : ApproveSnapshot) :
    DB × Except AppError Nat × Except AppError Nat :=
  match approveWritePhase db hrA nowA aidA fidA snapA with
  | .ok (db1, r1) =>
    match approveWritePhase db1 hrB nowB aidB fidB snapB with
    | .ok (db2, r2) => (db2, .ok r1, .ok r2)
    | .error e2 => (db1, .ok r1, .error e2)
  | .error e1 =>
    match approveWritePhase db hrB nowB aidB fidB snapB with
    | .ok (db2, r2) => (db2, .error e1, .ok r2)
    | .error e2 => (db, .error e1, .error e2)

/-- Forward evaluation of the write phase when the asset is available and
the requester already has an affiliation (so the capacity branch is
skipped). -/
theorem approveWritePhase_ok_eval (db : DB) (hr : String) (now aid fid : Nat)
    (snap : ApproveSnapshot)
    (hmem : snap.asset ∈ db.assets)
    (hqty : 0 < snap.asset.availableQuantity)
    (haff : (db.affiliations.find?
      (fun f => f.employeeEmail = snap.request.requesterEmail && f.hrEmail = hr)).isSome) :
    ∃ db', approveWritePhase db hr now aid fid snap = .ok (db', aid) := by
  obtain ⟨f, hf⟩ := Option.isSome_iff_exists.mp haff
  unfold approveWritePhase
  simp only []
  have hany : (db.assets.any
      (fun a => a.id = snap.asset.id && decide (0 < a.availableQuantity))) = true :=
    List.any_eq_true.mpr ⟨snap.asset, hmem, by simp [hqty]⟩
  rw [decrementAvailable, if_pos hany]
  rw [if_neg (by simp)]
  rw [hf]
  exact ⟨_, rfl⟩

/-- When no stored asset both carries the contested id and has positive
quantity, the conditional decrement matches nothing and the write phase
aborts with the `Conflict`-class error. -/
theorem approveWritePhase_conflict (db : DB) (hr : String) (now aid fid : Nat)
    (snap : ApproveSnapshot)
    (hnone : db.assets.any
      (fun a => a.id = snap.asset.id && decide (0 < a.availableQuantity)) = false) :
    approveWritePhase db hr now aid fid snap = .error .decrementConflict := by
  have hdec : decrementAvailable db.assets snap.asset.id = (db.assets, 0) := by
    rw [decrementAvailable, if_neg (by simp [hnone])]
  unfold approveWritePhase
  simp only []
  rw [hdec]
  rfl

/-- After the winning decrement consumes the last unit, no asset document
with the contested id has positive quantity left. -/
theorem decremented_last_unit_exhausted (db : DB) (snapAsset : Asset) (assetId : Nat)
    (hfind : db.assets.find? (fun a => a.id = assetId) = some snapAsset)
    (hnd : (db.assets.map Asset.id).Nodup)
    (hqty : snapAsset.availableQuantity = 1) :
    (updateFirst (fun a => a.id = snapAsset.id && decide (0 < a.availableQuantity))
      (fun a => { a with availableQuantity := a.availableQuantity - 1 }) db.assets).any
      (fun a => a.id = snapAsset.id && decide (0 < a.availableQuantity)) = false := by
  have hid : snapAsset.id = assetId := by simpa using List.find?_some hfind
  obtain ⟨l₁, l₂, heq, hnot⟩ := find?_decomp _ _ _ hfind
  have hnot' : ∀ y ∈ l₁, (decide (y.id = snapAsset.id) && decide (0 < y.availableQuantity)) = false := by
    intro y hy
    have h2 : y.id ≠ assetId := by simpa using hnot y hy
    simp [hid, h2]
  rw [heq, updateFirst_append_of_none _ _ _ _ hnot']
  rw [show updateFirst (fun a => a.id = snapAsset.id && decide (0 < a.availableQuantity))
      (fun a => { a with availableQuantity := a.availableQuantity - 1 })
      (snapAsset :: l₂) =
      { snapAsset with availableQuantity := snapAsset.availableQuantity - 1 } :: l₂ from by
    rw [updateFirst, if_pos (by simp [hqty])]]
  have hl₁ : l₁.any (fun a => a.id = snapAsset.id && decide (0 < a.availableQuantity)) = false := by
    rw [List.any_eq_false]
    intro y hy
    simp [hnot' y hy]
  have hl₂ : ∀ y ∈ l₂, y.id ≠ snapAsset.id := by
    rw [heq] at hnd
    simp only [List.map_append, List.map_cons] at hnd
    have h3 := (List.nodup_append.mp hnd).2.1
    rw [List.nodup_cons] at h3
    intro y hy hc
    exact h3.1 (hc ▸ List.mem_map_of_mem Asset.id hy)
  have h0 : ((({ snapAsset with availableQuantity := snapAsset.availableQuantity - 1 } : Asset).id
      = snapAsset.id : Bool) && decide (0 < ({ snapAsset with
        availableQuantity := snapAsset.availableQuantity - 1 } : Asset).availableQuantity)) = false := by
    simp [hqty]
  have hrest : ({ snapAsset with availableQuantity := snapAsset.availableQuantity - 1 } :: l₂).any
      (fun a => a.id = snapAsset.id && decide (0 < a.availableQuantity)) = false := by
    rw [List.any_cons, h0, Bool.false_or, List.any_eq_false]
    intro y hy
    simp [hl₂ y hy]
  rw [List.any_append, hl₁, hrest]
  rfl

/-- C4: against an asset with exactly one unit left, two approval
transactions whose read phases both observed that unit (the genuinely
concurrent schedule) resolve so that the write phase that commits first
succeeds while the other's conditional decrement (`availableQuantity > 0`
in the update predicate) matches zero documents and aborts its entire
transaction with the `Conflict`-class error. The statement is symmetric
in the two transactions, so it covers both commit orders: exactly one
succeeds. -/
theorem approve_race_exactly_one (db : DB) (hrA hrB : String)
    (ridA ridB nowA nowB aidA aidB fidA fidB : Nat) (snapA snapB : ApproveSnapshot)
    (hreadA : approveReadPhase db hrA ridA = .ok snapA)
    (hreadB : approveReadPhase db hrB ridB = .ok snapB)
    (hnd : (db.assets.map Asset.id).Nodup)
    (hqty : snapA.asset.availableQuantity = 1)
    (hsame : snapB.asset.id = snapA.asset.id)
    (haffA : (db.affiliations.find?
      (fun f => f.employeeEmail = snapA.request.requesterEmail && f.hrEmail = hrA)).isSome) :
    (approveRaceWrites db hrA nowA aidA fidA snapA hrB nowB aidB fidB snapB).2.1 = .ok aidA ∧
    (approveRaceWrites db hrA nowA aidA fidA snapA hrB nowB aidB fidB snapB).2.2 =
      .error .decrementConflict := by
  obtain ⟨-, -, -, hassetA, -⟩ := approveReadPhase_ok db hrA ridA snapA hreadA
  have hmemA : snapA.asset ∈ db.assets := List.mem_of_find?_eq_some hassetA
  obtain ⟨db1, hA⟩ := approveWritePhase_ok_eval db hrA nowA aidA fidA snapA hmemA
    (by omega) haffA
  obtain ⟨-, -, hassets1, -, -, -, -⟩ :=
    approveWritePhase_ok db hrA nowA aidA fidA snapA db1 aidA hA
  have hnoneB : db1.assets.any
      (fun a => a.id = snapB.asset.id && decide (0 < a.availableQuantity)) = false := by
    rw [hassets1]
    simp only [hsame]
    exact decremented_last_unit_exhausted db snapA.asset snapA.request.assetId hassetA hnd hqty
  have hB := approveWritePhase_conflict db1 hrB nowB aidB fidB snapB hnoneB
  refine ⟨?_, ?_⟩ <;> simp only [approveRaceWrites, hA, hB]

/-- Witness for C4: Bob's and Carol's pending requests race for the last
laptop; the first write phase wins, the second aborts with the conflict
error. -/
theorem approve_race_exactly_one_witness :
    (approveRaceWrites
      (DB.mk [⟨1, "Laptop", none, "Returnable", 1, "hr@x", none⟩]
        [⟨10, 1, "Laptop", "Returnable", "Bob", "bob@x", "hr@x", none, none, 4, none, "pending", none, none⟩,
         ⟨11, 1, "Laptop", "Returnable", "Carol", "carol@x", "hr@x", none, none, 4, none, "pending", none, none⟩]
        []
        [⟨30, "bob@x", "Bob", "hr@x", none, none, 2, "active"⟩,
         ⟨31, "carol@x", "Carol", "hr@x", none, none, 2, "active"⟩]
        [] [])
      "hr@x" 5 20 40
      ⟨⟨10, 1, "Laptop", "Returnable", "Bob", "bob@x", "hr@x", none, none, 4, none, "pending", none, none⟩,
       ⟨1, "Laptop", none, "Returnable", 1, "hr@x", none⟩⟩
      "hr@x" 6 21 41
      ⟨⟨11, 1, "Laptop", "Returnable", "Carol", "carol@x", "hr@x", none, none, 4, none, "pending", none, none⟩,
       ⟨1, "Laptop", none, "Returnable", 1, "hr@x", none⟩⟩).2.1 = .ok 20 ∧
    (approveRaceWrites
      (DB.mk [⟨1, "Laptop", none, "Returnable", 1, "hr@x", none⟩]
        [⟨10, 1, "Laptop", "Returnable", "Bob", "bob@x", "hr@x", none, none, 4, none, "pending", none, none⟩,
         ⟨11, 1, "Laptop", "Returnable", "Carol", "carol@x", "hr@x", none, none, 4, none, "pending", none, none⟩]
        []
        [⟨30, "bob@x", "Bob", "hr@x", none, none, 2, "active"⟩,
         ⟨31, "carol@x", "Carol", "hr@x", none, none, 2, "active"⟩]
        [] [])
      "hr@x" 5 20 40
      ⟨⟨10, 1, "Laptop", "Returnable", "Bob", "bob@x", "hr@x", none, none, 4, none, "pending", none, none⟩,
       ⟨1, "Laptop", none, "Returnable", 1, "hr@x", none⟩⟩
      "hr@x" 6 21 41
      ⟨⟨11, 1, "Laptop", "Returnable", "Carol", "carol@x", "hr@x", none, none, 4, none, "pending", none, none⟩,
       ⟨1, "Laptop", none, "Returnable", 1, "hr@x", none⟩⟩).2.2 = .error .decrementConflict :=
  approve_race_exactly_one
    (DB.mk [⟨1, "Laptop", none, "Returnable", 1, "hr@x", none⟩]
      [⟨10, 1, "Laptop", "Returnable", "Bob", "bob@x", "hr@x", none, none, 4, none, "pending", none, none⟩,
       ⟨11, 1, "Laptop", "Returnable", "Carol", "carol@x", "hr@x", none, none, 4, none, "pending", none, none⟩]
      []
      [⟨30, "bob@x", "Bob", "hr@x", none, none, 2, "active"⟩,
       ⟨31, "carol@x", "Carol", "hr@x", none, none, 2, "active"⟩]
      [] [])
    "hr@x" "hr@x" 10 11 5 6 20 21 40 41
    ⟨⟨10, 1, "Laptop", "Returnable", "Bob", "bob@x", "hr@x", none, none, 4, none, "pending", none, none⟩,
     ⟨1, "Laptop", none, "Returnable", 1, "hr@x", none⟩⟩
    ⟨⟨11, 1, "Laptop", "Returnable", "Carol", "carol@x", "hr@x", none, none, 4, none, "pending", none, none⟩,
     ⟨1, "Laptop", none, "Returnable", 1, "hr@x", none⟩⟩
    rfl rfl (by decide) rfl rfl (by decide)

/-! ## The quantity round trip (C6) -/

/-- Inversion of a successful `createRequest`. -/
theorem createRequest_ok (db : DB) (u : AuthUser) (assetId : Nat) (note : Option String)
    (rid now : Nat) (db' : DB) (r : Request)
    (h : createRequest db u assetId note rid now = (db', .ok r)) :
    ∃ asset,
      db.assets.find? (fun a => a.id = assetId) = some asset ∧
      r = ⟨rid, asset.id, asset.productName, asset.productType, u.name, u.email,
        asset.hrEmail, jsOrNull asset.companyName, none, now, none, "pending",
        jsOrNull note, none⟩ ∧
      db' = { db with requests := db.requests ++ [r] } := by
  unfold createRequest at h
  split at h
  · simp at h
  split at h
  · simp at h
  rename_i asset hfind
  simp only [Prod.mk.injEq, Except.ok.injEq] at h
  obtain ⟨hdb, hr⟩ := h
  exact ⟨asset, hfind, hr.symm, by rw [← hdb, ← hr]⟩

/-- C6: when `createRequest`, `approveRequest` (of that request) and
`returnAssignment` (of the assignment that approval created) all succeed
on a store whose request and assignment ids do not collide with the fresh
ones, the requested asset's `availableQuantity` afterwards equals its
value before the sequence: the approval's decrement of 1 is exactly undone
by the return's increment of 1 (the asset is necessarily `Returnable`,
since the return succeeded). -/
theorem create_approve_return_roundTrip (db db1 db2 db3 : DB) (creator returner : AuthUser)
    (hr : String) (assetId : Nat) (note : Option String)
    (rid now1 now2 now3 aid fid ridOut : Nat) (r : Request)
    (hfreshReq : ∀ q ∈ db.requests, q.id ≠ rid)
    (hfreshAsg : ∀ a ∈ db.assignedAssets, a.id ≠ aid)
    (h1 : createRequest db creator assetId note rid now1 = (db1, .ok r))
    (h2 : approveRequest db1 hr rid now2 aid fid = (db2, .ok ridOut))
    (h3 : returnAssignment db2 returner aid now3 = (db3, .ok ())) :
    (db3.assets.find? (fun a => a.id = assetId)).map Asset.availableQuantity =
      (db.assets.find? (fun a => a.id = assetId)).map Asset.availableQuantity := by
  -- invert the create
  obtain ⟨asset0, hfind0, hreq, hdb1⟩ := createRequest_ok db creator assetId note rid now1 db1 r h1
  have hid0 : asset0.id = assetId := by simpa using List.find?_some hfind0
  have hrid : r.id = rid := by rw [hreq]
  have hrassetId : r.assetId = asset0.id := by rw [hreq]
  -- invert the approval
  have h2' : approveRequestTx db1 hr rid now2 aid fid = .ok (db2, ridOut) := by
    unfold approveRequest at h2
    split at h2
    · rename_i db2' rid' heq
      simp only [Prod.mk.injEq, Except.ok.injEq] at h2
      rw [← h2.1, ← h2.2]
      exact heq
    · simp at h2
  obtain ⟨snap, hread, hwrite⟩ : ∃ snap, approveReadPhase db1 hr rid = .ok snap ∧
      approveWritePhase db1 hr now2 aid fid snap = .ok (db2, ridOut) := by
    unfold approveRequestTx at h2'
    split at h2'
    · simp at h2'
    · rename_i snap hread
      exact ⟨snap, hread, h2'⟩
  obtain ⟨hfindReq1, -, -, hfindAsset1, hqty1⟩ := approveReadPhase_ok db1 hr rid snap hread
  -- the approved request is the created one
  have hfindReq1' : db1.requests.find? (fun q => q.id = rid) = some r := by
    rw [hdb1]
    simp only []
    rw [find?_append_of_none _ _ _ (fun q hq => by simp [hfreshReq q hq])]
    rw [List.find?_cons_of_pos _ (by simp [hrid])]
  have hsnapreq : snap.request = r := by
    have := hfindReq1.symm.trans hfindReq1'
    simpa using this
  -- the approved asset is the requested one
  have hassets1 : db1.assets = db.assets := by rw [hdb1]
  have hsnapasset : snap.asset = asset0 := by
    have h4 : db1.assets.find? (fun a => a.id = snap.request.assetId) = some asset0 := by
      rw [hassets1, hsnapreq]
      simp only [hrassetId, hid0]
      exact hfind0
    have := hfindAsset1.symm.trans h4
    simpa using this
  -- write-phase effects
  obtain ⟨-, -, hassets2, hassigned2, -, -, -⟩ :=
    approveWritePhase_ok db1 hr now2 aid fid snap db2 ridOut hwrite
  obtain ⟨doc, hassigned2', hdocId, hdocAsset, -, -⟩ := hassigned2
  -- invert the return
  have h3' : returnAssignmentTx db2 returner aid now3 = .ok db3 := by
    unfold returnAssignment at h3
    split at h3
    · rename_i db3' heq
      simp only [Prod.mk.injEq] at h3
      rw [← h3.1]
      exact heq
    · simp at h3
  obtain ⟨assigned, asset', hfindAsg, -, hbind, -, hassets3, -, -, -, -, -⟩ :=
    returnAssignmentTx_ok db2 returner aid now3 db3 h3'
  -- the returned assignment is the one the approval inserted
  have hfindAsg' : db2.assignedAssets.find? (fun a => a.id = aid) = some doc := by
    rw [hassigned2', hdb1]
    simp only []
    rw [find?_append_of_none _ _ _ (fun a ha => by simp [hfreshAsg a ha])]
    rw [List.find?_cons_of_pos _ (by simp [hdocId])]
  have hassigned : assigned = doc := by
    have := hfindAsg.symm.trans hfindAsg'
    simpa using this
  -- decompose the asset list around the requested asset
  obtain ⟨l₁, l₂, heqAssets, hl₁⟩ := find?_decomp _ _ _ hfind0
  have hl₁' : ∀ y ∈ l₁, y.id ≠ asset0.id := by
    intro y hy
    have := hl₁ y hy
    simp only [hid0]
    simpa using this
  have hqty0 : 0 < asset0.availableQuantity := by
    rw [hsnapasset] at hqty1
    exact hqty1
  -- db2.assets
  have hassets2' : db2.assets =
      l₁ ++ { asset0 with availableQuantity := asset0.availableQuantity - 1 } :: l₂ := by
    rw [hassets2, hsnapasset, hassets1, heqAssets]
    rw [updateFirst_append_of_none _ _ _ _ (fun y hy => by simp [hl₁' y hy])]
    rw [updateFirst, if_pos (by simp [hqty0])]
  -- the asset the return found is the decremented one
  have hbind' : db2.assets.find? (fun a => a.id = asset0.id) =
      some { asset0 with availableQuantity := asset0.availableQuantity - 1 } := by
    rw [hassets2']
    rw [find?_append_of_none _ _ _ (fun y hy => by simp [hl₁' y hy])]
    rw [List.find?_cons_of_pos _ (by simp)]
  have hasset' : asset' = { asset0 with availableQuantity := asset0.availableQuantity - 1 } := by
    rw [hassigned, hdocAsset] at hbind
    simp only [Option.bind_some, hsnapasset] at hbind
    have := hbind.symm.trans hbind'
    simpa using this
  -- db3.assets
  have hassets3' : db3.assets =
      l₁ ++ { asset0 with availableQuantity := asset0.availableQuantity - 1 + 1 } :: l₂ := by
    rw [hassets3, hasset', hassets2']
    rw [updateFirst_append_of_none _ _ _ _ (fun y hy => by simp [hl₁' y hy])]
    rw [updateFirst, if_pos (by simp)]
  -- conclude
  rw [hassets3', heqAssets]
  rw [find?_append_of_none _ _ _ (fun y hy => by simp [hid0 ▸ hl₁' y hy]),
    find?_append_of_none _ _ _ (fun y hy => by simp [hid0 ▸ hl₁' y hy])]
  rw [List.find?_cons_of_pos _ (by simp [hid0]), List.find?_cons_of_pos _ (by simp [hid0])]
  simp only [Option.map_some']
  congr 1
  omega

/-! ## The request status machine (C3) -/

/-- One operation relates each pre-existing request to its updated version
by a legal edge (and never changes its id). -/
def reqStep (r r' : Request) : Prop :=
  r'.id = r.id ∧ allowedEdge r.requestStatus r'.requestStatus

/-- Over a whole trace, each pre-existing request evolves along the
reflexive-transitive closure of the legal edges. -/
def reqReach (r r' : Request) : Prop :=
  r'.id = r.id ∧ statusReach r.requestStatus r'.requestStatus

theorem reqStep_refl (r : Request) : reqStep r r := ⟨rfl, Or.inl rfl⟩

theorem reqStep_reqReach {r r' : Request} (h : reqStep r r') : reqReach r r' :=
  ⟨h.1, allowedEdge_statusReach h.2⟩

theorem reqReach_trans {r r' r'' : Request} (h1 : reqReach r r') (h2 : reqReach r' r'') :
    reqReach r r'' :=
  ⟨h2.1.trans h1.1, statusReach_trans h1.2 h2.2⟩

theorem forall₂_append_decomp {α β : Type} {R : α → β → Prop} :
    ∀ {xs ys : List α} {l : List β}, List.Forall₂ R (xs ++ ys) l →
      ∃ l₁ l₂, l = l₁ ++ l₂ ∧ List.Forall₂ R xs l₁ ∧ List.Forall₂ R ys l₂ := by
  intro xs
  induction xs with
  | nil => exact fun h => ⟨[], _, rfl, .nil, h⟩
  | cons x xs ih =>
    intro ys l h
    rw [List.cons_append] at h
    rcases List.forall₂_cons_left_iff.mp h with ⟨b, u', hxb, h', rfl⟩
    obtain ⟨l₁, l₂, rfl, h1, h2⟩ := ih h'
    exact ⟨b :: l₁, l₂, rfl, .cons hxb h1, h2⟩

/-- What one offboarding loop iteration can do to a request. -/
def retEl (emp : String) (r r' : Request) : Prop :=
  r' = r ∨ (r.requestStatus = "approved" ∧ r.requesterEmail = emp ∧
    r' = { r with requestStatus := "returned" })

theorem retEl_trans (emp : String) (a b c : Request)
    (h1 : retEl emp a b) (h2 : retEl emp b c) : retEl emp a c := by
  rcases h1 with rfl | ⟨ha, he, rfl⟩
  · exact h2
  · rcases h2 with rfl | ⟨hb, -, -⟩
    · exact Or.inr ⟨ha, he, rfl⟩
    · simp at hb

theorem retEl_reqStep {emp : String} {r r' : Request} (h : retEl emp r r') : reqStep r r' := by
  rcases h with rfl | ⟨ha, -, rfl⟩
  · exact reqStep_refl _
  · exact ⟨rfl, Or.inr (Or.inr ⟨ha, rfl⟩)⟩

/-- The requests column across one offboarding loop. -/
theorem fold_revert_requests (emp : String) (now : Nat) (l : List AssignedAsset) :
    ∀ db : DB, List.Forall₂ (retEl emp) db.requests
      (l.foldl (revertOneAssignment emp now) db).requests := by
  induction l with
  | nil =>
    intro db
    exact List.forall₂_same.mpr fun r _ => Or.inl rfl
  | cons a as ih =>
    intro db
    rw [List.foldl_cons]
    refine transRel_forall₂ (fun x y z => retEl_trans emp x y z) ?_ (ih _)
    unfold revertOneAssignment
    cases a.assetId with
    | none =>
      exact List.forall₂_same.mpr fun r _ => Or.inl rfl
    | some aid =>
      simp only []
      refine updateFirst_forall₂ _ _ _ (fun r => Or.inl rfl) ?_
      intro r hp
      simp only [Bool.and_eq_true, decide_eq_true_eq] at hp
      exact Or.inr ⟨hp.2, hp.1.2, rfl⟩

theorem approveRequest_requests (db : DB) (hr : String) (reqId now aid fid : Nat) :
    (approveRequest db hr reqId now aid fid).1.requests = db.requests ∨
    ∃ request, db.requests.find? (fun q => q.id = reqId) = some request ∧
      request.requestStatus = "pending" ∧
      (approveRequest db hr reqId now aid fid).1.requests =
        updateFirst (fun q => q.id = request.id)
          (fun q => { q with
            requestStatus := "approved"
            approvalDate := some now
            processedBy := some hr }) db.requests := by
  unfold approveRequest
  split
  · rename_i db' rid heq
    unfold approveRequestTx at heq
    split at heq
    · exact absurd heq (by simp)
    rename_i snap hread
    obtain ⟨hfind, -, hpend, -, -⟩ := approveReadPhase_ok db hr reqId snap hread
    obtain ⟨-, -, -, -, hreqs, -, -⟩ :=
      approveWritePhase_ok db hr now aid fid snap db' rid heq
    exact Or.inr ⟨snap.request, hfind, hpend, hreqs⟩
  · exact Or.inl rfl

theorem returnAssignment_requests (db : DB) (u : AuthUser) (assignedId now : Nat) :
    (returnAssignment db u assignedId now).1.requests = db.requests ∨
    ∃ emp aid', (returnAssignment db u assignedId now).1.requests =
      updateFirst (fun q => q.assetId = aid' && q.requesterEmail = emp
          && q.requestStatus = "approved")
        (fun q => { q with requestStatus := "returned" }) db.requests := by
  unfold returnAssignment
  split
  · rename_i db' heq
    obtain ⟨assigned, asset, -, -, -, -, -, -, hreqs, -, -, -⟩ :=
      returnAssignmentTx_ok db u assignedId now db' heq
    exact Or.inr ⟨assigned.employeeEmail, asset.id, hreqs⟩
  · exact Or.inl rfl

theorem removeAffiliation_requests (db : DB) (hr raw : String) (now : Nat) :
    (removeAffiliation db hr raw now).1.requests = db.requests ∨
    List.Forall₂ (retEl (jsToLowerCase raw)) db.requests
      (removeAffiliation db hr raw now).1.requests := by
  unfold removeAffiliation
  simp only []
  split
  · exact Or.inl rfl
  split
  · rename_i db' k heq
    obtain ⟨aff, -, -, -, -, -, -, hreqs, -⟩ :=
      removeAffiliationTx_ok db hr _ now db' k heq
    refine Or.inr ?_
    rw [hreqs]
    exact fold_revert_requests _ now _ db
  · exact Or.inl rfl

theorem stripeWebhookHandler_requests (db : DB) (ev : StripeEvent) (now : Nat) :
    (stripeWebhookHandler db ev now).1.requests = db.requests := by
  unfold stripeWebhookHandler
  split
  · rfl
  split
  · simp only []
    split
    · rfl
    · split <;> rfl
  · rfl

theorem forall₂_updateFirst_found (p : Request → Bool) (f : Request → Request)
    (l : List Request) (request : Request) (hfind : l.find? p = some request)
    (hre : reqStep request (f request)) :
    List.Forall₂ reqStep l (updateFirst p f l) := by
  obtain ⟨l₁, l₂, heq, -, hupd⟩ := updateFirst_of_find? p f l request hfind
  rw [hupd, heq]
  exact List.rel_append (List.forall₂_same.mpr fun r _ => reqStep_refl r)
    (List.Forall₂.cons hre (List.forall₂_same.mpr fun r _ => reqStep_refl r))

/-- Every operation moves every pre-existing request along at most one
legal edge (and may append fresh requests after them). -/
theorem applyOp_requests_step (db : DB) (op : Op) :
    ∃ l₀ ext, (applyOp db op).requests = l₀ ++ ext ∧
      List.Forall₂ reqStep db.requests l₀ := by
  cases op with
  | create u assetId note rid now =>
    obtain ⟨ext, h⟩ := createRequest_frame db u assetId note rid now
    refine ⟨db.requests, ext, ?_, List.forall₂_same.mpr fun r _ => reqStep_refl r⟩
    rw [show applyOp db (.create u assetId note rid now) =
      (createRequest db u assetId note rid now).1 from rfl, h]
  | approve hr reqId now aid fid =>
    rcases approveRequest_requests db hr reqId now aid fid with h | ⟨request, hfind, hpend, h⟩
    · exact ⟨db.requests, [], by rw [show applyOp db (.approve hr reqId now aid fid) =
        (approveRequest db hr reqId now aid fid).1 from rfl, h, List.append_nil],
        List.forall₂_same.mpr fun r _ => reqStep_refl r⟩
    · have hrid : request.id = reqId := by simpa using List.find?_some hfind
      have hfind' : db.requests.find? (fun q => q.id = request.id) = some request := by
        simp only [hrid]
        exact hfind
      refine ⟨_, [], by rw [show applyOp db (.approve hr reqId now aid fid) =
        (approveRequest db hr reqId now aid fid).1 from rfl, h, List.append_nil], ?_⟩
      exact forall₂_updateFirst_found (fun q => q.id = request.id)
        (fun q => { q with
          requestStatus := "approved"
          approvalDate := some now
          processedBy := some hr }) db.requests request hfind'
        ⟨rfl, Or.inr (Or.inl ⟨hpend, Or.inl rfl⟩)⟩
  | reject hr reqId now =>
    rcases rejectRequest_requests db hr reqId now with h | ⟨request, hfind, hpend, h⟩
    · exact ⟨db.requests, [], by rw [show applyOp db (.reject hr reqId now) =
        (rejectRequest db hr reqId now).1 from rfl, h, List.append_nil],
        List.forall₂_same.mpr fun r _ => reqStep_refl r⟩
    · have hrid : request.id = reqId := by simpa using List.find?_some hfind
      have hfind' : db.requests.find? (fun q => q.id = request.id) = some request := by
        simp only [hrid]
        exact hfind
      refine ⟨_, [], ?_, forall₂_updateFirst_found (fun q => q.id = request.id)
        (fun q => { q with
          requestStatus := "rejected"
          approvalDate := some now
          processedBy := some hr }) db.requests request hfind'
        ⟨rfl, Or.inr (Or.inl ⟨hpend, Or.inr rfl⟩)⟩⟩
      rw [show applyOp db (.reject hr reqId now) = (rejectRequest db hr reqId now).1 from rfl,
        h, List.append_nil]
  | giveBack u assignedId now =>
    rcases returnAssignment_requests db u assignedId now with h | ⟨emp, aid', h⟩
    · exact ⟨db.requests, [], by rw [show applyOp db (.giveBack u assignedId now) =
        (returnAssignment db u assignedId now).1 from rfl, h, List.append_nil],
        List.forall₂_same.mpr fun r _ => reqStep_refl r⟩
    · refine ⟨_, [], by rw [show applyOp db (.giveBack u assignedId now) =
        (returnAssignment db u assignedId now).1 from rfl, h, List.append_nil], ?_⟩
      refine updateFirst_forall₂ _ _ _ reqStep_refl ?_
      intro r hp
      simp only [Bool.and_eq_true, decide_eq_true_eq] at hp
      exact ⟨rfl, Or.inr (Or.inr ⟨hp.2, rfl⟩)⟩
  | removeAff hr raw now =>
    rcases removeAffiliation_requests db hr raw now with h | h
    · exact ⟨db.requests, [], by rw [show applyOp db (.removeAff hr raw now) =
        (removeAffiliation db hr raw now).1 from rfl, h, List.append_nil],
        List.forall₂_same.mpr fun r _ => reqStep_refl r⟩
    · exact ⟨_, [], by rw [show applyOp db (.removeAff hr raw now) =
        (removeAffiliation db hr raw now).1 from rfl, List.append_nil],
        List.Forall₂.imp (fun a b hab => retEl_reqStep hab) h⟩
  | payment ev now =>
    exact ⟨db.requests, [], by rw [show applyOp db (.payment ev now) =
      (stripeWebhookHandler db ev now).1 from rfl, stripeWebhookHandler_requests,
      List.append_nil], List.forall₂_same.mpr fun r _ => reqStep_refl r⟩

/-- Over any trace, every initially-present request evolves along
`statusReach` (so in particular a `rejected` request never changes again
and no request ever returns to `pending`). -/
theorem applyOps_requests_reach (db : DB) (ops : List Op) :
    ∃ l₀ ext, (applyOps db ops).requests = l₀ ++ ext ∧
      List.Forall₂ reqReach db.requests l₀ := by
  induction ops generalizing db with
  | nil =>
    exact ⟨db.requests, [], by rw [List.append_nil]; rfl,
      List.forall₂_same.mpr fun r _ => ⟨rfl, Or.inl rfl⟩⟩
  | cons op rest ih =>
    obtain ⟨m₀, mext, hm, hstep⟩ := applyOp_requests_step db op
    obtain ⟨l₀, ext, hl, hreach⟩ := ih (applyOp db op)
    rw [hm] at hreach
    obtain ⟨l₁, l₂, rfl, hr1, hr2⟩ := forall₂_append_decomp hreach
    refine ⟨l₁, l₂ ++ ext, ?_, ?_⟩
    · rw [show applyOps db (op :: rest) = applyOps (applyOp db op) rest from rfl, hl,
        List.append_assoc]
    · have h1 : List.Forall₂ reqReach db.requests m₀ :=
        List.Forall₂.imp (fun a b hab => reqStep_reqReach hab) hstep
      exact @transRel_forall₂ Request reqReach
        (fun a b c hx hy => reqReach_trans hx hy) db.requests m₀ l₁ h1 hr1

/-! ## Offboarding, collection by collection (C5) -/

theorem revertOneAssignment_assignedAssets (e : String) (n : Nat) (db : DB) (a : AssignedAsset) :
    (revertOneAssignment e n db a).assignedAssets =
      updateFirst (fun x => x.id = a.id)
        (fun x => { x with status := "returned", returnDate := some n })
        db.assignedAssets := by
  unfold revertOneAssignment
  cases a.assetId <;> rfl

theorem revertOneAssignment_assets (e : String) (n : Nat) (db : DB) (a : AssignedAsset) :
    (revertOneAssignment e n db a).assets =
      (match a.assetId with
        | none => db.assets
        | some aid => updateFirst (fun x => x.id = aid)
            (fun x => { x with availableQuantity := x.availableQuantity + 1 }) db.assets) := by
  unfold revertOneAssignment
  cases a.assetId <;> rfl

theorem forall₂_imp_mem {α β : Type} {R S : α → β → Prop} :
    ∀ {l₁ : List α} {l₂ : List β}, (∀ a ∈ l₁, ∀ b, R a b → S a b) →
      List.Forall₂ R l₁ l₂ → List.Forall₂ S l₁ l₂ := by
  intro l₁ l₂ h hf
  induction hf with
  | nil => exact .nil
  | cons hab hrest ih =>
    exact .cons (h _ (by simp) _ hab) (ih fun a ha b => h a (by simp [ha]) b)

/-- The assignment column across the offboarding loop: each of the listed
assignment ids is flipped to returned, everything else is untouched. -/
theorem fold_revert_assignedAssets (e : String) (n : Nat) (l : List AssignedAsset) :
    ∀ db : DB, (db.assignedAssets.map AssignedAsset.id).Nodup →
      List.Forall₂ (fun a a' => a' = if a.id ∈ l.map AssignedAsset.id
          then { a with status := "returned", returnDate := some n } else a)
        db.assignedAssets (l.foldl (revertOneAssignment e n) db).assignedAssets := by
  induction l with
  | nil =>
    intro db _
    rw [List.foldl_nil]
    exact List.forall₂_same.mpr fun a _ => by simp
  | cons x l' ih =>
    intro db hnd
    rw [List.foldl_cons]
    have hstep : List.Forall₂ (fun a a₁ => a₁ = if a.id = x.id
        then { a with status := "returned", returnDate := some n } else a)
        db.assignedAssets (revertOneAssignment e n db x).assignedAssets := by
      rw [revertOneAssignment_assignedAssets]
      exact updateFirst_key_forall₂ AssignedAsset.id x.id _ db.assignedAssets hnd
    have hnd' : ((revertOneAssignment e n db x).assignedAssets.map AssignedAsset.id).Nodup := by
      rw [revertOneAssignment_assignedAssets,
        map_key_updateFirst AssignedAsset.id (fun y => y.id = x.id)
          (fun y => { y with status := "returned", returnDate := some n })
          db.assignedAssets (fun y => rfl)]
      exact hnd
    have hrest := ih (revertOneAssignment e n db x) hnd'
    refine forall₂_compose ?_ hstep hrest
    intro a a₁ a' h1 h2
    by_cases hx : a.id = x.id
    · rw [if_pos hx] at h1
      subst h1
      simp only [List.map_cons, List.mem_cons] at h2 ⊢
      rw [if_pos (Or.inl hx)]
      rcases Decidable.em (a.id ∈ l'.map AssignedAsset.id) with hm | hm
      · rw [if_pos (by simpa using hm)] at h2
        rw [h2]
      · rw [if_neg (by simpa using hm)] at h2
        rw [h2]
    · rw [if_neg hx] at h1
      rw [h1] at h2
      simp only [List.map_cons, List.mem_cons] at h2 ⊢
      rcases Decidable.em (a.id ∈ l'.map AssignedAsset.id) with hm | hm
      · rw [if_pos (by simpa using hm)] at h2
        rw [if_pos (Or.inr hm)]
        exact h2
      · rw [if_neg (by simpa using hm)] at h2
        rw [if_neg (by simp [hx, hm])]
        exact h2

/-- The asset column across the offboarding loop: each asset's
`availableQuantity` grows by the number of listed assignments that
reference it. -/
theorem fold_revert_assets (e : String) (n : Nat) (l : List AssignedAsset) :
    ∀ db : DB, (db.assets.map Asset.id).Nodup →
      List.Forall₂ (fun s s' => s' = { s with availableQuantity := s.availableQuantity +
          (l.filter (fun a => a.assetId = some s.id)).length })
        db.assets (l.foldl (revertOneAssignment e n) db).assets := by
  induction l with
  | nil =>
    intro db _
    rw [List.foldl_nil]
    exact List.forall₂_same.mpr fun s _ => by simp
  | cons x l' ih =>
    intro db hnd
    rw [List.foldl_cons]
    rcases hx : x.assetId with _ | aid
    · -- no asset reference: this iteration leaves assets alone
      have hassets : (revertOneAssignment e n db x).assets = db.assets := by
        rw [revertOneAssignment_assets, hx]
      have hnd' : ((revertOneAssignment e n db x).assets.map Asset.id).Nodup := by
        rw [hassets]; exact hnd
      have hrest := ih (revertOneAssignment e n db x) hnd'
      rw [hassets] at hrest
      refine forall₂_imp_mem ?_ hrest
      intro s _hs s' h
      rw [h]
      have : (List.filter (fun a => a.assetId = some s.id) (x :: l')) =
          List.filter (fun a => a.assetId = some s.id) l' :=
        List.filter_cons_of_neg (by simp [hx])
      rw [this]
    · -- increment the first asset with this id, then recurse
      have hstep : List.Forall₂ (fun s s₁ => s₁ = if s.id = aid
          then { s with availableQuantity := s.availableQuantity + 1 } else s)
          db.assets (revertOneAssignment e n db x).assets := by
        rw [revertOneAssignment_assets, hx]
        exact updateFirst_key_forall₂ Asset.id aid _ db.assets hnd
      have hnd' : ((revertOneAssignment e n db x).assets.map Asset.id).Nodup := by
        rw [revertOneAssignment_assets, hx,
          map_key_updateFirst Asset.id (fun y => y.id = aid)
            (fun y => { y with availableQuantity := y.availableQuantity + 1 })
            db.assets (fun y => rfl)]
        exact hnd
      have hrest := ih (revertOneAssignment e n db x) hnd'
      refine forall₂_compose ?_ hstep hrest
      intro s s₁ s' h1 h2
      by_cases hsid : s.id = aid
      · rw [if_pos hsid] at h1
        subst h1
        have hcnt : (List.filter (fun a => a.assetId = some s.id) (x :: l')).length =
            (List.filter (fun a => a.assetId = some s.id) l').length + 1 := by
          rw [List.filter_cons_of_pos (by simp [hx, hsid]), List.length_cons]
        rw [h2]
        simp only [Asset.mk.injEq, true_and, and_true]
        rw [hcnt]
        push_cast
        omega
      · rw [if_neg hsid] at h1
        rw [h1] at h2
        rw [h2]
        have : (List.filter (fun a => a.assetId = some s.id) (x :: l')) =
            List.filter (fun a => a.assetId = some s.id) l' :=
          List.filter_cons_of_neg (by simp [hx]; exact fun hc => hsid hc.symm)
        rw [this]

theorem removeAffiliationTx_notFound (db : DB) (hr emp : String) (now : Nat)
    (h : db.affiliations.find? (fun f => f.employeeEmail = emp && f.hrEmail = hr) = none) :
    removeAffiliationTx db hr emp now = .error .affiliationNotFound := by
  unfold removeAffiliationTx
  rw [h]

theorem removeAffiliationTx_found (db : DB) (hr emp : String) (now : Nat) (aff : Affiliation)
    (h : db.affiliations.find? (fun f => f.employeeEmail = emp && f.hrEmail = hr) = some aff) :
    ∃ db', removeAffiliationTx db hr emp now = .ok (db', (db.assignedAssets.filter
      (fun a => a.employeeEmail = emp && a.hrEmail = hr && a.status = "assigned")).length) := by
  unfold removeAffiliationTx
  rw [h]
  simp only []
  exact ⟨_, rfl⟩

theorem mem_map_id_filter_iff (l : List AssignedAsset) (q : AssignedAsset → Bool)
    (hnd : (l.map AssignedAsset.id).Nodup) (a : AssignedAsset) (ha : a ∈ l) :
    a.id ∈ (l.filter q).map AssignedAsset.id ↔ q a = true := by
  constructor
  · intro hm
    obtain ⟨b, hbf, hid⟩ := List.mem_map.mp hm
    have hb : b ∈ l := List.mem_of_mem_filter hbf
    have hq : q b = true := List.of_mem_filter hbf
    have hba : b = a := List.inj_on_of_nodup_map hnd hb ha hid
    rwa [hba] at hq
  · intro hq
    exact List.mem_map_of_mem _ (List.mem_filter.mpr ⟨ha, hq⟩)

theorem revertOneAssignment_requests_proj (e : String) (n : Nat) (db : DB)
    (a : AssignedAsset) :
    (revertOneAssignment e n db a).requests = revertRequestsStep e db.requests a := by
  unfold revertOneAssignment revertRequestsStep
  cases a.assetId <;> rfl

/-- The offboarding loop's requests column is exactly the fold of the
per-iteration `updateOne` steps over the snapshot list. -/
theorem fold_revert_requests_eq (emp : String) (now : Nat) (l : List AssignedAsset) :
    ∀ db : DB, (l.foldl (revertOneAssignment emp now) db).requests =
      l.foldl (revertRequestsStep emp) db.requests := by
  induction l with
  | nil => intro db; rfl
  | cons a as ih =>
    intro db
    rw [List.foldl_cons, List.foldl_cons, ih, revertOneAssignment_requests_proj]

theorem forall₂_exists_right {α β : Type} {R : α → β → Prop} :
    ∀ {l : List α} {l' : List β}, List.Forall₂ R l l' → ∀ a ∈ l, ∃ b ∈ l', R a b := by
  intro l l' h
  induction h with
  | nil => intro a ha; cases ha
  | cons hab htail ih =>
    intro a ha
    rcases List.mem_cons.mp ha with rfl | ha'
    · exact ⟨_, List.mem_cons_self _ _, hab⟩
    · obtain ⟨b, hb, hrb⟩ := ih a ha'
      exact ⟨b, List.mem_cons_of_mem _ hb, hrb⟩

/-- An approved-or-returned match for `(aid, emp)` survives an offboarding
loop segment as an approved-or-returned match. -/
theorem retEl_exists_transport (emp : String) {reqs reqs' : List Request}
    (h : List.Forall₂ (retEl emp) reqs reqs') (aid : Nat)
    (hex : ∃ r ∈ reqs, r.assetId = aid ∧ r.requesterEmail = emp ∧
      (r.requestStatus = "approved" ∨ r.requestStatus = "returned")) :
    ∃ r' ∈ reqs', r'.assetId = aid ∧ r'.requesterEmail = emp ∧
      (r'.requestStatus = "approved" ∨ r'.requestStatus = "returned") := by
  obtain ⟨r, hr, h1, h2, h3⟩ := hex
  obtain ⟨r', hr', hrel⟩ := forall₂_exists_right h r hr
  rcases hrel with rfl | ⟨ha, he, rfl⟩
  · exact ⟨r', hr', h1, h2, h3⟩
  · exact ⟨_, hr', h1, h2, Or.inr rfl⟩

/-- A returned match for `(aid, emp)` survives an offboarding loop segment
unchanged in status (the loop only rewrites `approved` documents). -/
theorem retEl_returned_transport (emp : String) {reqs reqs' : List Request}
    (h : List.Forall₂ (retEl emp) reqs reqs') (aid : Nat)
    (hex : ∃ r ∈ reqs, r.assetId = aid ∧ r.requesterEmail = emp ∧
      r.requestStatus = "returned") :
    ∃ r' ∈ reqs', r'.assetId = aid ∧ r'.requesterEmail = emp ∧
      r'.requestStatus = "returned" := by
  obtain ⟨r, hr, h1, h2, h3⟩ := hex
  obtain ⟨r', hr', hrel⟩ := forall₂_exists_right h r hr
  rcases hrel with rfl | ⟨ha, -, -⟩
  · exact ⟨r', hr', h1, h2, h3⟩
  · rw [h3] at ha
    exact absurd ha (by decide)

theorem mem_updateFirst_of_not_pred (p : α → Bool) (f : α → α) (l : List α) (x : α)
    (hx : x ∈ l) (hp : p x = false) : x ∈ updateFirst p f l := by
  induction l with
  | nil => cases hx
  | cons a as ih =>
    rw [updateFirst]
    rcases List.mem_cons.mp hx with rfl | hmem
    · rw [if_neg (by simp [hp])]
      exact List.mem_cons_self _ _
    · by_cases ha : p a = true
      · rw [if_pos ha]
        exact List.mem_cons_of_mem _ hmem
      · rw [if_neg ha]
        exact List.mem_cons_of_mem _ (ih hmem)

/-- If some `(aid, emp)` match is approved or already returned, then after
the loop iteration's `updateOne` a returned `(aid, emp)` match exists:
either the first approved match got flipped, or the returned one
survived. -/
theorem updateFirst_flip_exists (emp : String) (aid : Nat) (reqs : List Request)
    (hex : ∃ r ∈ reqs, r.assetId = aid ∧ r.requesterEmail = emp ∧
      (r.requestStatus = "approved" ∨ r.requestStatus = "returned")) :
    ∃ r' ∈ updateFirst
        (fun r => r.assetId = aid && r.requesterEmail = emp && r.requestStatus = "approved")
        (fun r => { r with requestStatus := "returned" }) reqs,
      r'.assetId = aid ∧ r'.requesterEmail = emp ∧ r'.requestStatus = "returned" := by
  obtain ⟨r, hr, h1, h2, h3⟩ := hex
  rcases h3 with h3 | h3
  · have hsome : (reqs.find? (fun r => r.assetId = aid && r.requesterEmail = emp
        && r.requestStatus = "approved")).isSome := by
      rw [List.find?_isSome]
      exact ⟨r, hr, by simp [h1, h2, h3]⟩
    obtain ⟨r0, hfind⟩ := Option.isSome_iff_exists.mp hsome
    have hp0 := List.find?_some hfind
    simp only [Bool.and_eq_true, decide_eq_true_eq] at hp0
    obtain ⟨l₁, l₂, -, -, hupd⟩ := updateFirst_of_find? _ _ reqs r0 hfind
    rw [hupd]
    exact ⟨{ r0 with requestStatus := "returned" },
      List.mem_append_right _ (List.mem_cons_self _ _), hp0.1.1, hp0.1.2, rfl⟩
  · refine ⟨r, ?_, h1, h2, h3⟩
    exact mem_updateFirst_of_not_pred _ _ reqs r hr (by simp [h3])

/-- The positive effect of the offboarding loop on requests: if the
snapshot list contains an assignment referencing asset `aid` and some
`approved` request matches `(aid, emp)`, then after the loop a `returned`
match for `(aid, emp)` exists. -/
theorem fold_revert_requests_exists (emp : String) (now : Nat) (l : List AssignedAsset)
    (db : DB) (asg : AssignedAsset) (hmem : asg ∈ l) (aid : Nat)
    (hasg : asg.assetId = some aid)
    (hex : ∃ r ∈ db.requests, r.assetId = aid ∧ r.requesterEmail = emp ∧
      r.requestStatus = "approved") :
    ∃ r' ∈ (l.foldl (revertOneAssignment emp now) db).requests,
      r'.assetId = aid ∧ r'.requesterEmail = emp ∧ r'.requestStatus = "returned" := by
  obtain ⟨l₁, l₂, rfl⟩ := List.append_of_mem hmem
  rw [List.foldl_append, List.foldl_cons]
  have hex1 : ∃ r ∈ (l₁.foldl (revertOneAssignment emp now) db).requests,
      r.assetId = aid ∧ r.requesterEmail = emp ∧
      (r.requestStatus = "approved" ∨ r.requestStatus = "returned") :=
    retEl_exists_transport emp (fold_revert_requests emp now l₁ db) aid (by
      obtain ⟨r, hr, h1, h2, h3⟩ := hex
      exact ⟨r, hr, h1, h2, Or.inl h3⟩)
  have hstep : ∃ r' ∈ (revertOneAssignment emp now
      (l₁.foldl (revertOneAssignment emp now) db) asg).requests,
      r'.assetId = aid ∧ r'.requesterEmail = emp ∧ r'.requestStatus = "returned" := by
    rw [revertOneAssignment_requests_proj]
    unfold revertRequestsStep
    rw [hasg]
    exact updateFirst_flip_exists emp aid _ hex1
  exact retEl_returned_transport emp
    (fold_revert_requests emp now l₂ (revertOneAssignment emp now
      (l₁.foldl (revertOneAssignment emp now) db) asg)) aid hstep

/-- C5: offboarding. If no affiliation exists for the (lower-cased
employee, HR) pair, `removeAffiliation` fails with the `NotFound`-class
error and changes nothing. If one exists then — atomically — every
`assigned` assignment of that pair is marked `returned` with the
timestamp, each such assignment's asset gains 1 `availableQuantity` (one
increment per assignment referencing it), the requests collection is
exactly the fold of the loop's per-assignment `updateOne` steps — so only
`approved` requests of that employee can flip to `returned`, and whenever
a reverted assignment references an asset with a matching `approved`
request, a matching `returned` request exists afterwards — the
affiliation document is deleted, the HR's `currentEmployees` drops by
exactly 1 with no floor check, and the returned count equals the number
of assignments reverted. -/
theorem removeAffiliation_spec (db : DB) (hr rawEmp : String) (now : Nat)
    (hne : jsToLowerCase rawEmp ≠ "") :
    (db.affiliations.find?
        (fun f => f.employeeEmail = jsToLowerCase rawEmp && f.hrEmail = hr) = none →
      removeAffiliation db hr rawEmp now = (db, .error .affiliationNotFound)) ∧
    (∀ affiliation,
      db.affiliations.find?
        (fun f => f.employeeEmail = jsToLowerCase rawEmp && f.hrEmail = hr) = some affiliation →
      (db.assignedAssets.map AssignedAsset.id).Nodup →
      (db.assets.map Asset.id).Nodup →
      ∃ db',
        removeAffiliation db hr rawEmp now = (db', .ok ((db.assignedAssets.filter
          (fun a => a.employeeEmail = jsToLowerCase rawEmp && a.hrEmail = hr
            && a.status = "assigned")).length)) ∧
        List.Forall₂ (fun a a' =>
            a' = if a.employeeEmail = jsToLowerCase rawEmp && a.hrEmail = hr
                && a.status = "assigned"
              then { a with status := "returned", returnDate := some now } else a)
          db.assignedAssets db'.assignedAssets ∧
        db'.affiliations = deleteFirst (fun f => f.id = affiliation.id) db.affiliations ∧
        db'.users = updateFirst (fun u => u.email = hr)
          (fun u => { u with currentEmployees := u.currentEmployees - 1 }) db.users ∧
        List.Forall₂ (fun s s' =>
            s' = { s with availableQuantity := s.availableQuantity +
              ((db.assignedAssets.filter (fun a => a.employeeEmail = jsToLowerCase rawEmp
                  && a.hrEmail = hr && a.status = "assigned")).filter
                (fun a => a.assetId = some s.id)).length })
          db.assets db'.assets ∧
        List.Forall₂ (retEl (jsToLowerCase rawEmp)) db.requests db'.requests ∧
        db'.requests = (db.assignedAssets.filter
            (fun a => a.employeeEmail = jsToLowerCase rawEmp && a.hrEmail = hr
              && a.status = "assigned")).foldl
          (revertRequestsStep (jsToLowerCase rawEmp)) db.requests ∧
        (∀ asg ∈ db.assignedAssets.filter
            (fun a => a.employeeEmail = jsToLowerCase rawEmp && a.hrEmail = hr
              && a.status = "assigned"),
          ∀ aid, asg.assetId = some aid →
          (∃ r ∈ db.requests, r.assetId = aid ∧
            r.requesterEmail = jsToLowerCase rawEmp ∧ r.requestStatus = "approved") →
          ∃ r' ∈ db'.requests, r'.assetId = aid ∧
            r'.requesterEmail = jsToLowerCase rawEmp ∧ r'.requestStatus = "returned")) := by
  constructor
  · intro h
    exact removeAffiliation_error db hr rawEmp now _ hne
      (removeAffiliationTx_notFound db hr _ now h)
  · intro affiliation hfind hndA hndS
    obtain ⟨db', htx⟩ := removeAffiliationTx_found db hr _ now affiliation hfind
    obtain ⟨aff2, hfind2, -, haff, husers, hassets, hassigned, hreqs, -⟩ :=
      removeAffiliationTx_ok db hr _ now db' _ htx
    have haffeq : aff2 = affiliation := by
      rw [hfind] at hfind2
      exact (Option.some.injEq _ _ ▸ hfind2).symm
    refine ⟨db', removeAffiliation_ok db hr rawEmp now db' _ hne htx,
      ?_, ?_, husers, ?_, ?_, ?_, ?_⟩
    · rw [hassigned]
      refine forall₂_imp_mem ?_ (fold_revert_assignedAssets (jsToLowerCase rawEmp) now _ db hndA)
      intro a ha b hb
      rw [hb]
      have hiff := mem_map_id_filter_iff db.assignedAssets
        (fun a => a.employeeEmail = jsToLowerCase rawEmp && a.hrEmail = hr
          && a.status = "assigned") hndA a ha
      by_cases hq : (a.employeeEmail = jsToLowerCase rawEmp && a.hrEmail = hr
          && a.status = "assigned") = true
      · rw [if_pos (hiff.mpr hq), if_pos hq]
      · rw [if_neg (fun hc => hq (hiff.mp hc)), if_neg hq]
    · rw [haff, haffeq]
    · rw [hassets]
      exact fold_revert_assets (jsToLowerCase rawEmp) now _ db hndS
    · rw [hreqs]
      exact fold_revert_requests (jsToLowerCase rawEmp) now _ db
    · rw [hreqs]
      exact fold_revert_requests_eq (jsToLowerCase rawEmp) now _ db
    · intro asg hasgmem aid hasg hex
      rw [hreqs]
      exact fold_revert_requests_exists (jsToLowerCase rawEmp) now _ db asg hasgmem
        aid hasg hex

/-- Witness for C5: offboarding Bob, who holds one assigned laptop, under
an HR with `currentEmployees = 1`. -/
theorem removeAffiliation_spec_witness :
    ∃ db',
      removeAffiliation
        (DB.mk [⟨1, "Laptop", none, "Returnable", 0, "hr@x", none⟩]
          [⟨10, 1, "Laptop", "Returnable", "Bob", "bob@x", "hr@x", none, none, 4, some 5, "approved", none, some "hr@x"⟩]
          [⟨20, some 1, "Laptop", none, "Returnable", "bob@x", "Bob", "hr@x", none, 5, none, "assigned"⟩]
          [⟨30, "bob@x", "Bob", "hr@x", none, none, 2, "active"⟩]
          [⟨"hr@x", .num 1, 1, none⟩] [])
        "hr@x" "bob@x" 9 =
        (db', .ok (((DB.mk [⟨1, "Laptop", none, "Returnable", 0, "hr@x", none⟩]
          [⟨10, 1, "Laptop", "Returnable", "Bob", "bob@x", "hr@x", none, none, 4, some 5, "approved", none, some "hr@x"⟩]
          [⟨20, some 1, "Laptop", none, "Returnable", "bob@x", "Bob", "hr@x", none, 5, none, "assigned"⟩]
          [⟨30, "bob@x", "Bob", "hr@x", none, none, 2, "active"⟩]
          [⟨"hr@x", .num 1, 1, none⟩] []).assignedAssets.filter
          (fun a => a.employeeEmail = jsToLowerCase "bob@x" && a.hrEmail = "hr@x"
            && a.status = "assigned")).length)) ∧
      List.Forall₂ (fun a a' =>
          a' = if a.employeeEmail = jsToLowerCase "bob@x" && a.hrEmail = "hr@x"
              && a.status = "assigned"
            then { a with status := "returned", returnDate := some 9 } else a)
        (DB.mk [⟨1, "Laptop", none, "Returnable", 0, "hr@x", none⟩]
          [⟨10, 1, "Laptop", "Returnable", "Bob", "bob@x", "hr@x", none, none, 4, some 5, "approved", none, some "hr@x"⟩]
          [⟨20, some 1, "Laptop", none, "Returnable", "bob@x", "Bob", "hr@x", none, 5, none, "assigned"⟩]
          [⟨30, "bob@x", "Bob", "hr@x", none, none, 2, "active"⟩]
          [⟨"hr@x", .num 1, 1, none⟩] []).assignedAssets db'.assignedAssets ∧
      db'.affiliations = deleteFirst (fun f => f.id = (30 : Nat))
        (DB.mk [⟨1, "Laptop", none, "Returnable", 0, "hr@x", none⟩]
          [⟨10, 1, "Laptop", "Returnable", "Bob", "bob@x", "hr@x", none, none, 4, some 5, "approved", none, some "hr@x"⟩]
          [⟨20, some 1, "Laptop", none, "Returnable", "bob@x", "Bob", "hr@x", none, 5, none, "assigned"⟩]
          [⟨30, "bob@x", "Bob", "hr@x", none, none, 2, "active"⟩]
          [⟨"hr@x", .num 1, 1, none⟩] []).affiliations ∧
      db'.users = updateFirst (fun u => u.email = "hr@x")
        (fun u => { u with currentEmployees := u.currentEmployees - 1 })
        (DB.mk [⟨1, "Laptop", none, "Returnable", 0, "hr@x", none⟩]
          [⟨10, 1, "Laptop", "Returnable", "Bob", "bob@x", "hr@x", none, none, 4, some 5, "approved", none, some "hr@x"⟩]
          [⟨20, some 1, "Laptop", none, "Returnable", "bob@x", "Bob", "hr@x", none, 5, none, "assigned"⟩]
          [⟨30, "bob@x", "Bob", "hr@x", none, none, 2, "active"⟩]
          [⟨"hr@x", .num 1, 1, none⟩] []).users ∧
      List.Forall₂ (fun s s' =>
          s' = { s with availableQuantity := s.availableQuantity +
            (((DB.mk [⟨1, "Laptop", none, "Returnable", 0, "hr@x", none⟩]
              [⟨10, 1, "Laptop", "Returnable", "Bob", "bob@x", "hr@x", none, none, 4, some 5, "approved", none, some "hr@x"⟩]
              [⟨20, some 1, "Laptop", none, "Returnable", "bob@x", "Bob", "hr@x", none, 5, none, "assigned"⟩]
              [⟨30, "bob@x", "Bob", "hr@x", none, none, 2, "active"⟩]
              [⟨"hr@x", .num 1, 1, none⟩] []).assignedAssets.filter
                (fun a => a.employeeEmail = jsToLowerCase "bob@x"
                  && a.hrEmail = "hr@x" && a.status = "assigned")).filter
              (fun a => a.assetId = some s.id)).length })
        (DB.mk [⟨1, "Laptop", none, "Returnable", 0, "hr@x", none⟩]
          [⟨10, 1, "Laptop", "Returnable", "Bob", "bob@x", "hr@x", none, none, 4, some 5, "approved", none, some "hr@x"⟩]
          [⟨20, some 1, "Laptop", none, "Returnable", "bob@x", "Bob", "hr@x", none, 5, none, "assigned"⟩]
          [⟨30, "bob@x", "Bob", "hr@x", none, none, 2, "active"⟩]
          [⟨"hr@x", .num 1, 1, none⟩] []).assets db'.assets ∧
      List.Forall₂ (retEl (jsToLowerCase "bob@x"))
        (DB.mk [⟨1, "Laptop", none, "Returnable", 0, "hr@x", none⟩]
          [⟨10, 1, "Laptop", "Returnable", "Bob", "bob@x", "hr@x", none, none, 4, some 5, "approved", none, some "hr@x"⟩]
          [⟨20, some 1, "Laptop", none, "Returnable", "bob@x", "Bob", "hr@x", none, 5, none, "assigned"⟩]
          [⟨30, "bob@x", "Bob", "hr@x", none, none, 2, "active"⟩]
          [⟨"hr@x", .num 1, 1, none⟩] []).requests db'.requests ∧
      db'.requests = ((DB.mk [⟨1, "Laptop", none, "Returnable", 0, "hr@x", none⟩]
          [⟨10, 1, "Laptop", "Returnable", "Bob", "bob@x", "hr@x", none, none, 4, some 5, "approved", none, some "hr@x"⟩]
          [⟨20, some 1, "Laptop", none, "Returnable", "bob@x", "Bob", "hr@x", none, 5, none, "assigned"⟩]
          [⟨30, "bob@x", "Bob", "hr@x", none, none, 2, "active"⟩]
          [⟨"hr@x", .num 1, 1, none⟩] []).assignedAssets.filter
          (fun a => a.employeeEmail = jsToLowerCase "bob@x" && a.hrEmail = "hr@x"
            && a.status = "assigned")).foldl
        (revertRequestsStep (jsToLowerCase "bob@x"))
        (DB.mk [⟨1, "Laptop", none, "Returnable", 0, "hr@x", none⟩]
          [⟨10, 1, "Laptop", "Returnable", "Bob", "bob@x", "hr@x", none, none, 4, some 5, "approved", none, some "hr@x"⟩]
          [⟨20, some 1, "Laptop", none, "Returnable", "bob@x", "Bob", "hr@x", none, 5, none, "assigned"⟩]
          [⟨30, "bob@x", "Bob", "hr@x", none, none, 2, "active"⟩]
          [⟨"hr@x", .num 1, 1, none⟩] []).requests ∧
      (∀ asg ∈ (DB.mk [⟨1, "Laptop", none, "Returnable", 0, "hr@x", none⟩]
          [⟨10, 1, "Laptop", "Returnable", "Bob", "bob@x", "hr@x", none, none, 4, some 5, "approved", none, some "hr@x"⟩]
          [⟨20, some 1, "Laptop", none, "Returnable", "bob@x", "Bob", "hr@x", none, 5, none, "assigned"⟩]
          [⟨30, "bob@x", "Bob", "hr@x", none, none, 2, "active"⟩]
          [⟨"hr@x", .num 1, 1, none⟩] []).assignedAssets.filter
          (fun a => a.employeeEmail = jsToLowerCase "bob@x" && a.hrEmail = "hr@x"
            && a.status = "assigned"),
        ∀ aid, asg.assetId = some aid →
        (∃ r ∈ (DB.mk [⟨1, "Laptop", none, "Returnable", 0, "hr@x", none⟩]
          [⟨10, 1, "Laptop", "Returnable", "Bob", "bob@x", "hr@x", none, none, 4, some 5, "approved", none, some "hr@x"⟩]
          [⟨20, some 1, "Laptop", none, "Returnable", "bob@x", "Bob", "hr@x", none, 5, none, "assigned"⟩]
          [⟨30, "bob@x", "Bob", "hr@x", none, none, 2, "active"⟩]
          [⟨"hr@x", .num 1, 1, none⟩] []).requests, r.assetId = aid ∧
          r.requesterEmail = jsToLowerCase "bob@x" ∧ r.requestStatus = "approved") →
        ∃ r' ∈ db'.requests, r'.assetId = aid ∧
          r'.requesterEmail = jsToLowerCase "bob@x" ∧ r'.requestStatus = "returned") :=
  (removeAffiliation_spec
    (DB.mk [⟨1, "Laptop", none, "Returnable", 0, "hr@x", none⟩]
      [⟨10, 1, "Laptop", "Returnable", "Bob", "bob@x", "hr@x", none, none, 4, some 5, "approved", none, some "hr@x"⟩]
      [⟨20, some 1, "Laptop", none, "Returnable", "bob@x", "Bob", "hr@x", none, 5, none, "assigned"⟩]
      [⟨30, "bob@x", "Bob", "hr@x", none, none, 2, "active"⟩]
      [⟨"hr@x", .num 1, 1, none⟩] [])
    "hr@x" "bob@x" 9 (by decide)).2
    ⟨30, "bob@x", "Bob", "hr@x", none, none, 2, "active"⟩
    (by decide) (by decide) (by decide)

/-- C2 (amended: payment-capacity updates excluded): starting from any
store satisfying `currentEmployees ≤ packageLimit` for every account, any
sequence of `approveRequest` / `rejectRequest` / `createRequest` /
`returnAssignment` / `removeAffiliation` operations keeps the invariant at
every observable point (after every prefix). -/
theorem capacity_invariant_without_payments (db : DB) (ops : List Op)
    (hinv : capacityOk db) (hops : ∀ op ∈ ops, op.isPayment = false)
    (pre post : List Op) (hsplit : ops = pre ++ post) :
    capacityOk (applyOps db pre) :=
  capacityOk_applyOps db pre hinv
    (fun o ho => hops o (by rw [hsplit]; exact List.mem_append_left _ ho))

/-- Witness for C2 (amended): approving Bob's pending request under an HR
with one free slot, then offboarding him; the invariant holds after the
first of the two operations. -/
theorem capacity_invariant_without_payments_witness :
    capacityOk (DB.mk [⟨1, "Laptop", none, "Returnable", 1, "hr@x", none⟩]
      [⟨10, 1, "Laptop", "Returnable", "Bob", "bob@x", "hr@x", none, none, 4, none, "pending", none, none⟩]
      [] [] [⟨"hr@x", .num 1, 0, none⟩] []) ∧
    (∀ op ∈ ([.approve "hr@x" 10 5 20 30, .removeAff "hr@x" "bob@x" 6] : List Op),
      op.isPayment = false) ∧
    capacityOk (applyOps (DB.mk [⟨1, "Laptop", none, "Returnable", 1, "hr@x", none⟩]
      [⟨10, 1, "Laptop", "Returnable", "Bob", "bob@x", "hr@x", none, none, 4, none, "pending", none, none⟩]
      [] [] [⟨"hr@x", .num 1, 0, none⟩] [])
      [.approve "hr@x" 10 5 20 30]) :=
  ⟨by decide, by decide,
    capacity_invariant_without_payments
      (DB.mk [⟨1, "Laptop", none, "Returnable", 1, "hr@x", none⟩]
        [⟨10, 1, "Laptop", "Returnable", "Bob", "bob@x", "hr@x", none, none, 4, none, "pending", none, none⟩]
        [] [] [⟨"hr@x", .num 1, 0, none⟩] [])
      [.approve "hr@x" 10 5 20 30, .removeAff "hr@x" "bob@x" 6]
      (by decide) (by decide)
      [.approve "hr@x" 10 5 20 30] [.removeAff "hr@x" "bob@x" 6] rfl⟩

/-- C2 counterexample: the claim as stated also admits interleaved
payment-capacity updates, but the webhook *overwrites* `packageLimit`;
an HR at `currentEmployees = packageLimit = 2` that completes a checkout
for a smaller package (granted limit 1) ends with `currentEmployees = 2 >
packageLimit = 1`, violating the invariant at an observable point. -/
theorem capacity_invariant_payment_cex :
    capacityOk (DB.mk [] [] [] [] [⟨"hr@x", .num 2, 2, none⟩] []) ∧
    ¬ capacityOk (applyOps (DB.mk [] [] [] [] [⟨"hr@x", .num 2, 2, none⟩] [])
      [Op.payment ⟨true, "checkout.session.completed",
        ⟨some "hr@x", none, some "Basic", some "1"⟩, some 100, some "usd", "cs_9"⟩ 6]) :=
  ⟨by decide, by decide⟩

/-- Witness for C6: Bob requests the laptop (2 in stock), HR approves
(stock 1), Bob returns it (stock 2 again). -/
theorem create_approve_return_roundTrip_witness :
    ((DB.mk [⟨1, "Laptop", none, "Returnable", 2, "hr@x", none⟩] [] []
        [⟨30, "bob@x", "Bob", "hr@x", none, none, 2, "active"⟩] [] []).assets.find?
      (fun a => a.id = 1)).map Asset.availableQuantity = some 2 ∧
    (((DB.mk [⟨1, "Laptop", none, "Returnable", 2, "hr@x", none⟩]
        [⟨10, 1, "Laptop", "Returnable", "Bob", "bob@x", "hr@x", none, none, 4, some 5, "returned", none, some "hr@x"⟩]
        [⟨20, some 1, "Laptop", none, "Returnable", "bob@x", "Bob", "hr@x", none, 5, some 6, "returned"⟩]
        [⟨30, "bob@x", "Bob", "hr@x", none, none, 2, "active"⟩] [] []).assets.find?
      (fun a => a.id = 1)).map Asset.availableQuantity =
      ((DB.mk [⟨1, "Laptop", none, "Returnable", 2, "hr@x", none⟩] [] []
        [⟨30, "bob@x", "Bob", "hr@x", none, none, 2, "active"⟩] [] []).assets.find?
      (fun a => a.id = 1)).map Asset.availableQuantity) :=
  ⟨by decide,
    create_approve_return_roundTrip
      (DB.mk [⟨1, "Laptop", none, "Returnable", 2, "hr@x", none⟩] [] []
        [⟨30, "bob@x", "Bob", "hr@x", none, none, 2, "active"⟩] [] [])
      (DB.mk [⟨1, "Laptop", none, "Returnable", 2, "hr@x", none⟩]
        [⟨10, 1, "Laptop", "Returnable", "Bob", "bob@x", "hr@x", none, none, 4, none, "pending", none, none⟩]
        [] [⟨30, "bob@x", "Bob", "hr@x", none, none, 2, "active"⟩] [] [])
      (DB.mk [⟨1, "Laptop", none, "Returnable", 1, "hr@x", none⟩]
        [⟨10, 1, "Laptop", "Returnable", "Bob", "bob@x", "hr@x", none, none, 4, some 5, "approved", none, some "hr@x"⟩]
        [⟨20, some 1, "Laptop", none, "Returnable", "bob@x", "Bob", "hr@x", none, 5, none, "assigned"⟩]
        [⟨30, "bob@x", "Bob", "hr@x", none, none, 2, "active"⟩] [] [])
      (DB.mk [⟨1, "Laptop", none, "Returnable", 2, "hr@x", none⟩]
        [⟨10, 1, "Laptop", "Returnable", "Bob", "bob@x", "hr@x", none, none, 4, some 5, "returned", none, some "hr@x"⟩]
        [⟨20, some 1, "Laptop", none, "Returnable", "bob@x", "Bob", "hr@x", none, 5, some 6, "returned"⟩]
        [⟨30, "bob@x", "Bob", "hr@x", none, none, 2, "active"⟩] [] [])
      ⟨"Bob", "bob@x", "employee"⟩ ⟨"Bob", "bob@x", "employee"⟩
      "hr@x" 1 none 10 4 5 6 20 30 20
      ⟨10, 1, "Laptop", "Returnable", "Bob", "bob@x", "hr@x", none, none, 4, none, "pending", none, none⟩
      (by decide) (by decide) rfl rfl rfl⟩

/-- C3: the request status machine. (i) The only status-changing legal
edges are pending→approved, pending→rejected and approved→returned, and
each strictly increases `statusRank`, so no edge can be taken twice and in
particular pending→approved→pending is impossible; (ii) nothing reaches
`pending` except `pending` itself and nothing leaves `rejected`;
(iii) every operation moves every stored request along at most one legal
edge; (iv) over any operation trace every stored request evolves inside
the reflexive-transitive closure of the legal edges; (v)/(vi) approving
or rejecting a non-pending request fails with the `InvalidState`-class
error and leaves the store unchanged. -/
theorem request_status_machine :
    (∀ s t : String, allowedEdge s t → s ≠ t →
      ((s = "pending" ∧ (t = "approved" ∨ t = "rejected")) ∨
        (s = "approved" ∧ t = "returned")) ∧ statusRank s < statusRank t) ∧
    (∀ s : String, statusReach s "pending" → s = "pending") ∧
    (∀ t : String, statusReach "rejected" t → t = "rejected") ∧
    (∀ (db : DB) (op : Op), ∃ l₀ ext, (applyOp db op).requests = l₀ ++ ext ∧
      List.Forall₂ reqStep db.requests l₀) ∧
    (∀ (db : DB) (ops : List Op), ∃ l₀ ext, (applyOps db ops).requests = l₀ ++ ext ∧
      List.Forall₂ reqReach db.requests l₀) ∧
    (∀ (db : DB) (hr : String) (reqId now aid fid : Nat) (request : Request),
      db.requests.find? (fun q => q.id = reqId) = some request →
      request.hrEmail = hr → request.requestStatus ≠ "pending" →
      approveRequest db hr reqId now aid fid = (db, .error .requestNotPending)) ∧
    (∀ (db : DB) (hr : String) (reqId now : Nat) (request : Request),
      db.requests.find? (fun q => q.id = reqId) = some request →
      request.hrEmail = hr → request.requestStatus ≠ "pending" →
      rejectRequest db hr reqId now = (db, .error .requestNotPending)) := by
  refine ⟨?_, ?_, ?_, applyOp_requests_step, applyOps_requests_reach,
    approveRequest_not_pending, rejectRequest_not_pending⟩
  · intro s t hedge hne
    rcases hedge with h | ⟨h1, h2 | h2⟩ | ⟨h1, h2⟩
    · exact absurd h hne
    · subst_vars
      exact ⟨Or.inl ⟨rfl, Or.inl rfl⟩, by simp [statusRank]⟩
    · subst_vars
      exact ⟨Or.inl ⟨rfl, Or.inr rfl⟩, by simp [statusRank]⟩
    · subst_vars
      exact ⟨Or.inr ⟨rfl, rfl⟩, by simp [statusRank]⟩
  · intro s h
    rcases h with h | ⟨h1, h2 | h2 | h2⟩ | ⟨h1, h2⟩ <;> simp_all
  · intro t h
    rcases h with h | ⟨h1, h2⟩ | ⟨h1, h2⟩ <;> simp_all

/-- Witness for C3: its approve-guard clause applied to a store whose only
request is already `approved` — the second approval attempt fails with the
`InvalidState`-class error and changes nothing. -/
theorem request_status_machine_witness :
    approveRequest
      (DB.mk [⟨1, "Laptop", none, "Returnable", 1, "hr@x", none⟩]
        [⟨10, 1, "Laptop", "Returnable", "Bob", "bob@x", "hr@x", none, none, 4, some 5, "approved", none, some "hr@x"⟩]
        [] [] [] [])
      "hr@x" 10 7 21 31 =
      (DB.mk [⟨1, "Laptop", none, "Returnable", 1, "hr@x", none⟩]
        [⟨10, 1, "Laptop", "Returnable", "Bob", "bob@x", "hr@x", none, none, 4, some 5, "approved", none, some "hr@x"⟩]
        [] [] [] [],
       .error .requestNotPending) :=
  request_status_machine.2.2.2.2.2.1
    (DB.mk [⟨1, "Laptop", none, "Returnable", 1, "hr@x", none⟩]
      [⟨10, 1, "Laptop", "Returnable", "Bob", "bob@x", "hr@x", none, none, 4, some 5, "approved", none, some "hr@x"⟩]
      [] [] [] [])
    "hr@x" 10 7 21 31
    ⟨10, 1, "Laptop", "Returnable", "Bob", "bob@x", "hr@x", none, none, 4, some 5, "approved", none, some "hr@x"⟩
    (by decide) rfl (by decide)
